import Mathlib

/-!
Shallow embedding of the window-lifecycle core of the stream-rag-agent
repository (package `window`: `Manager`, `Window`, `ToContextString`),
together with theorems settling the frozen claims about it.

Modelling conventions:
* Go `time.Time` is modelled as an abstract monotone clock value `Nat`
  (a single time unit serves both for `UnixNano` in window ids and for the
  seconds used by the duration check; only ordering and subtraction matter).
* Go byte slices (`[]byte`) that the code only converts with `string(...)`
  or feeds to `json.Unmarshal` are modelled as `String`.
* `json.Unmarshal` into `map[string]interface{}` followed by a `for k, v
  := range data` loop is a library call whose iteration order Go leaves
  unspecified.  It is modelled by a parameter
  `u : String → Option (List (String × String))`: `none` models an
  unmarshal error, `some kvs` models a successful parse whose list order is
  the iteration order this call happened to observe.  Two runs of the
  program on the same window may use two different parameters that agree
  up to permutation of the key/value pairs (`ParseAgree` below).
-/

namespace StreamRag

/-- `config.KafkaTopicConfig` (internal/config/config.go). -/
structure KafkaTopicConfig where
  Name : String
  Context : String
  WindowDurationSeconds : Nat
  WindowMaxMessages : Nat
  deriving Repr, DecidableEq

/-- `window.RawKafkaMessage`. -/
structure RawKafkaMessage where
  Topic : String
  Partition : Int
  Offset : Int
  Key : String
  Value : String
  Timestamp : Nat
  deriving Repr, DecidableEq

instance : Inhabited RawKafkaMessage :=
  ⟨{ Topic := "", Partition := 0, Offset := 0, Key := "", Value := "", Timestamp := 0 }⟩

/-- `window.Window`. -/
structure Window where
  ID : String
  Topic : String
  Partition : Int
  StartTime : Nat
  EndTime : Nat
  Messages : List RawKafkaMessage
  Context : String
  IsClosed : Bool
  MessageCount : Nat
  deriving Repr, DecidableEq

instance : Inhabited Window :=
  ⟨{ ID := "", Topic := "", Partition := 0, StartTime := 0, EndTime := 0,
     Messages := [], Context := "", IsClosed := false, MessageCount := 0 }⟩

/-- `window.NewWindow` (part_000, file 2). -/
def NewWindow (topic : String) (partition : Int) (startTime : Nat)
    (topicContext : String) : Window :=
  { ID := topic ++ "_" ++ toString partition ++ "_" ++ toString startTime
    Topic := topic
    Partition := partition
    StartTime := startTime
    EndTime := 0
    Messages := []
    Context := topicContext
    IsClosed := false
    MessageCount := 0 }

/-- `Window.AddMessage`: append, bump the count, track the latest timestamp. -/
def Window.AddMessage (w : Window) (msg : RawKafkaMessage) : Window :=
  { w with
    Messages := w.Messages ++ [msg]
    MessageCount := w.MessageCount + 1
    EndTime := msg.Timestamp }

/-- Abstract stand-in for Go `time.Time.Format(time.RFC3339)`: any
deterministic injection of the clock value into strings works for the
claims at hand. -/
def fmtTime (t : Nat) : String := toString t

/-- The result, for each payload byte string, of `json.Unmarshal` into
`map[string] interface \x7b \x7d` together with the iteration order one
particular `range` loop observed (see the module comment). -/
def UnmarshalRun : Type := String → Option (List (String × String))

/-- Two unmarshal runs that are possible for the same underlying
`json.Unmarshal` semantics: they fail on the same inputs and succeed with
the same key/value pairs, possibly iterated in different orders. -/
def ParseAgree (u1 u2 : UnmarshalRun) : Prop :=
  ∀ v, match u1 v, u2 v with
    | none, none => True
    | some l1, some l2 => l1.Perm l2
    | _, _ => False

/-- The `for k, v := range data` body inside `ToContextString`. -/
def renderKVs : List (String × String) → String
  | [] => ""
  | (k, v) :: rest => "    - " ++ k ++ ": " ++ v ++ "\n" ++ renderKVs rest

/-- One iteration of the message loop in `ToContextString`: JSON details if
the payload unmarshals, else the raw fallback line (the warning is only
logged). -/
def renderMsg (u : UnmarshalRun) (msg : RawKafkaMessage) : String :=
  match u msg.Value with
  | none =>
      "  - Raw Message (Offset: " ++ toString msg.Offset ++ "): " ++ msg.Value ++ "\n"
  | some kvs =>
      "  - Message (Offset: " ++ toString msg.Offset ++ ") Details:\n" ++ renderKVs kvs

/-- The string returned when the window holds no messages. -/
def noMessagesString (w : Window) : String :=
  "Topic: " ++ w.Topic ++ ", Window ID: " ++ w.ID ++ ", No messages in this window."

/-- The header lines written before the message loop. -/
def headerString (w : Window) : String :=
  "Kafka Topic: " ++ w.Topic ++ "\n"
    ++ "Topic Context: " ++ w.Context ++ "\n"
    ++ "Window ID: " ++ w.ID ++ ", Time Range: " ++ fmtTime w.StartTime
    ++ " - " ++ fmtTime w.EndTime
    ++ ", Total Messages: " ++ toString w.MessageCount ++ "\n"
    ++ "Messages:\n"

/-- `Window.ToContextString`, including its `(string, error)` result pair;
the error component is `none` for Go `nil`.  The index loop mirrors
`for i := 0; i < maxSummarizeMessages; i++` over `w.Messages[i]`. -/
def Window.ToContextString (w : Window) (u : UnmarshalRun) : String × Option String :=
  if w.Messages.length = 0 then
    (noMessagesString w, none)
  else
    let maxS := if w.MessageCount < 10 then w.MessageCount else 10
    let body := (List.range maxS).foldl
      (fun acc i => acc ++ renderMsg u (w.Messages.getD i default)) ""
    (headerString w ++ body
      ++ (if maxS < w.MessageCount then
            "  ...and " ++ toString (w.MessageCount - maxS)
              ++ " more messages (truncated for summary).\n"
          else ""), none)

/-- The truncation tail of the summary, as a standalone definition. -/
def truncationNotice (w : Window) : String :=
  if 10 < w.MessageCount then
    "  ...and " ++ toString (w.MessageCount - 10)
      ++ " more messages (truncated for summary).\n"
  else ""

theorem join_concat (xs : List String) (x : String) :
    String.join (xs ++ [x]) = String.join xs ++ x := by
  simp [String.join, List.foldl_append]

theorem foldl_range_render (f : RawKafkaMessage → String) (l : List RawKafkaMessage) :
    ∀ (n : Nat), n ≤ l.length → ∀ (a : String),
      (List.range n).foldl (fun acc i => acc ++ f (l.getD i default)) a
        = a ++ String.join ((l.take n).map f) := by
  intro n
  induction n with
  | zero => intro _ a; simp [String.join]
  | succ n ih =>
      intro hn a
      have hlt : n < l.length := hn
      rw [List.range_succ, List.foldl_append, ih (Nat.le_of_lt hlt) a]
      simp only [List.foldl_cons, List.foldl_nil]
      have hget : l[n]? = some (l.getD n default) := by
        rw [List.getD_eq_getElem?_getD, List.getElem?_eq_getElem hlt]
        rfl
      rw [List.take_succ, hget]
      simp only [Option.toList_some, List.map_append, List.map_cons, List.map_nil]
      rw [join_concat, String.append_assoc]

theorem maxS_eq_min (c : Nat) : (if c < 10 then c else 10) = min c 10 := by
  rw [Nat.min_def]; split <;> split <;> omega

/-- For a nonempty window (with the program invariant `count = len`) the
summary decomposes into header, the rendering of the earliest
`min count 10` messages, and the truncation tail. -/
theorem toContextString_decomp (w : Window) (u : UnmarshalRun)
    (h : w.MessageCount = w.Messages.length) (hne : w.MessageCount ≠ 0) :
    (w.ToContextString u).1 =
      headerString w
        ++ String.join ((w.Messages.take (min w.MessageCount 10)).map (renderMsg u))
        ++ truncationNotice w := by
  have hlen : ¬ w.Messages.length = 0 := by omega
  unfold Window.ToContextString
  rw [if_neg hlen]
  simp only [maxS_eq_min]
  have hmin : min w.MessageCount 10 ≤ w.Messages.length := by
    have := Nat.min_le_left w.MessageCount 10
    omega
  rw [foldl_range_render (renderMsg u) w.Messages (min w.MessageCount 10) hmin ""]
  rw [String.empty_append]
  have htail : (if min w.MessageCount 10 < w.MessageCount then
      "  ...and " ++ toString (w.MessageCount - min w.MessageCount 10)
        ++ " more messages (truncated for summary).\n"
      else "") = truncationNotice w := by
    unfold truncationNotice
    rcases Nat.lt_or_ge w.MessageCount 10 with hc | hc
    · rw [if_neg (by omega), if_neg (by omega)]
    · rcases Nat.lt_or_ge 10 w.MessageCount with hc2 | hc2
      · rw [if_pos (by omega), if_pos (by omega)]
        have : min w.MessageCount 10 = 10 := by omega
        rw [this]
      · rw [if_neg (by omega), if_neg (by omega)]
  rw [htail]

theorem headerString_data_head (w : Window) (x y : String) :
    ((headerString w ++ x) ++ y).data.head? = some 'K' := by
  unfold headerString
  simp only [String.data_append, List.head?_append]
  have : ("Kafka Topic: " : String).data.head? = some 'K' := by decide
  simp [this]

theorem noMessagesString_data_head (w : Window) :
    (noMessagesString w).data.head? = some 'T' := by
  unfold noMessagesString
  simp only [String.data_append, List.head?_append]
  have : ("Topic: " : String).data.head? = some 'T' := by decide
  simp [this]

theorem header_ne_noMessages (w : Window) (x y : String) :
    (headerString w ++ x) ++ y ≠ noMessagesString w := by
  intro hEq
  have h1 := headerString_data_head w x y
  rw [hEq, noMessagesString_data_head w] at h1
  exact absurd (Option.some.inj h1) (by decide)

/-- C7: `ToContextString` returns the trivial "no messages" string exactly
when the count is zero; otherwise it is the header followed by the
rendering of the `min count 10` earliest messages (parsed key/value pairs
when the payload unmarshals, else the raw fallback line) followed by a
truncation notice naming the omitted count, present iff the count exceeds
10 (the `count = length Messages` hypothesis is the Window invariant the
program maintains). -/
theorem summarize_shape (w : Window) (u : UnmarshalRun)
    (h : w.MessageCount = w.Messages.length) :
    ((w.ToContextString u).1 = noMessagesString w ↔ w.MessageCount = 0)
    ∧ (w.MessageCount ≠ 0 →
        (w.ToContextString u).1 =
          headerString w
            ++ String.join ((w.Messages.take (min w.MessageCount 10)).map (renderMsg u))
            ++ truncationNotice w) := by
  constructor
  · constructor
    · intro heq
      by_contra hne
      rw [toContextString_decomp w u h hne] at heq
      exact header_ne_noMessages w _ _ heq
    · intro h0
      have hlen : w.Messages.length = 0 := by omega
      unfold Window.ToContextString
      rw [if_pos hlen]
  · exact toContextString_decomp w u h

/-- Witness for `summarize_shape` at a concrete window. -/
theorem summarize_shape_witness :
    (((NewWindow "t" 0 0 "c").AddMessage default).ToContextString (fun _ => none)).1 =
      headerString ((NewWindow "t" 0 0 "c").AddMessage default)
        ++ String.join (((((NewWindow "t" 0 0 "c").AddMessage default).Messages.take
              (min ((NewWindow "t" 0 0 "c").AddMessage default).MessageCount 10)).map
            (renderMsg (fun _ => none))))
        ++ truncationNotice ((NewWindow "t" 0 0 "c").AddMessage default) :=
  (summarize_shape ((NewWindow "t" 0 0 "c").AddMessage default) (fun _ => none)
    (by decide)).2 (by decide)

/-- C10: both return paths of `ToContextString` end in `return ..., nil`:
the error component is always `none`, so callers may ignore it. -/
theorem toContextString_error_nil (w : Window) (u : UnmarshalRun) :
    (w.ToContextString u).2 = none := by
  unfold Window.ToContextString
  split <;> rfl

/-- Concrete window and unmarshal runs exhibiting the nondeterministic
iteration order of `for k, v := range data` over a two-key payload. -/
def wC6 : Window :=
  (NewWindow "tx" 0 0 "ctx").AddMessage
    { Topic := "tx", Partition := 0, Offset := 7, Key := "",
      Value := "\x7b\x22a\x22:1,\x22b\x22:2\x7d", Timestamp := 3 }

def u1c : UnmarshalRun := fun _ => some [("a", "1"), ("b", "2")]

def u2c : UnmarshalRun := fun _ => some [("b", "2"), ("a", "1")]

/-- C6 counterexample: two unmarshal runs that are both possible outcomes
of `json.Unmarshal` plus map iteration on the very same window (they agree
up to permutation of the parsed pairs) yield different summary strings, so
`summarize()` is not deterministic for multi-key structured payloads. -/
theorem summarize_not_deterministic :
    ParseAgree u1c u2c ∧ (wC6.ToContextString u1c).1 ≠ (wC6.ToContextString u2c).1 := by
  constructor
  · intro v
    exact List.Perm.swap ("b", "2") ("a", "1") []
  · decide

/-- C6 amended: `summarize()` is deterministic whenever none of the first
`min count 10` payloads parses as structured data with more than one key:
two unmarshal runs of the same underlying parse then give identical
strings. -/
theorem summarize_deterministic_of_few_keys (w : Window) (u1 u2 : UnmarshalRun)
    (hagree : ParseAgree u1 u2)
    (h : w.MessageCount = w.Messages.length)
    (hsmall : ∀ m ∈ w.Messages.take (min w.MessageCount 10),
        ∀ l, u1 m.Value = some l → l.length ≤ 1) :
    (w.ToContextString u1).1 = (w.ToContextString u2).1 := by
  rcases Nat.eq_zero_or_pos w.MessageCount with h0 | h0
  · have hlen : w.Messages.length = 0 := by omega
    unfold Window.ToContextString
    rw [if_pos hlen, if_pos hlen]
  · have hne : w.MessageCount ≠ 0 := by omega
    rw [toContextString_decomp w u1 h hne, toContextString_decomp w u2 h hne]
    have hmap : (w.Messages.take (min w.MessageCount 10)).map (renderMsg u1)
        = (w.Messages.take (min w.MessageCount 10)).map (renderMsg u2) := by
      apply List.map_congr_left
      intro m hm
      have hrel := hagree m.Value
      unfold renderMsg
      cases hu1 : u1 m.Value with
      | none =>
          rw [hu1] at hrel
          cases hu2 : u2 m.Value with
          | none => rfl
          | some l2 => rw [hu2] at hrel; exact absurd hrel (by simp)
      | some l1 =>
          rw [hu1] at hrel
          cases hu2 : u2 m.Value with
          | none => rw [hu2] at hrel; exact absurd hrel (by simp)
          | some l2 =>
              rw [hu2] at hrel
              have hlen1 : l1.length ≤ 1 := hsmall m hm l1 hu1
              have : l1 = l2 := by
                match l1, hlen1 with
                | [], _ => exact (List.Perm.eq_nil (hrel.symm)).symm
                | [a], _ => exact (List.perm_singleton.mp hrel.symm).symm
              rw [this]
    rw [hmap]

/-- Witness for `summarize_deterministic_of_few_keys` at a concrete window
with a single-key payload and two agreeing unmarshal runs. -/
theorem summarize_deterministic_witness :
    (wC6.ToContextString (fun _ => some [("a", "1")])).1
      = (wC6.ToContextString (fun _ => some [("a", "1")])).1 :=
  summarize_deterministic_of_few_keys wC6 (fun _ => some [("a", "1")])
    (fun _ => some [("a", "1")])
    (fun _ => List.Perm.refl _) (by decide)
    (by intro m hm l hl; cases hl; decide)

/-!
## The Manager state machine

The `Manager` of part_000 is modelled as a transition system.  Every
mutation of the registry/window state in the Go code happens inside the
critical section of `m.mu`, so one model step corresponds to one critical
section (plus, for `Act.run`, the preceding `ProcessWindow` call of the
same goroutine, whose only effect outside the registry is the hand-off
itself, recorded in `processedLog`).  Windows live in a `heap` list and
are referred to by index, mirroring the shared `*Window` pointers held
simultaneously by the registry, the flusher goroutines and the
processing goroutines.  The buffered `flushTrigger` channel of capacity 1
is the boolean `flushSignal`.  `flushSent`/`flushDropped` are ghost logs
recording, per `FlushAllWindows` send attempt, which keys obtained the
signal and which hit the `default:` branch; they influence nothing.
Steps whose Go counterpart blocks or whose guard fails leave the state
unchanged (the goroutine just keeps looping or waiting). -/

/-- `fmt.Sprintf("%s_%d", topic, partition)`. -/
def keyFor (topic : String) (partition : Int) : String :=
  topic ++ "_" ++ toString partition

/-- `m.windows[key]` lookup. -/
def lookupReg : List (String × Nat) → String → Option Nat
  | [], _ => none
  | (k, p) :: rest, key => if k = key then some p else lookupReg rest key

/-- `delete(m.windows, key)`. -/
def eraseReg (l : List (String × Nat)) (key : String) : List (String × Nat) :=
  l.filter (fun kp => kp.1 != key)

/-- The mutable state owned by one `Manager`. -/
structure MState where
  heap : List Window
  windows : List (String × Nat)
  flushSignal : Bool
  flushers : List Nat
  pending : List Nat
  processedLog : List (Nat × Bool)
  now : Nat
  flushSent : List String
  flushDropped : List String
  deriving Repr, DecidableEq

/-- `NewManager`: empty registry, empty buffered flush channel. -/
def initState : MState :=
  { heap := [], windows := [], flushSignal := false, flushers := [],
    pending := [], processedLog := [], now := 0, flushSent := [], flushDropped := [] }

/-- Whether the window at pointer `p` is closed (dangling pointers read as
an open default window, and are shown unreachable by the invariants). -/
def closedAt (s : MState) (p : Nat) : Bool :=
  (s.heap.getD p default).IsClosed

/-- `Manager.closeWindow`: the already-closed guard, then mark closed, pin
`EndTime` to now, and spawn the processing goroutine (recorded in
`pending`; its body runs later as `Act.run`). -/
def MState.closeWindow (s : MState) (p : Nat) : MState :=
  let w := s.heap.getD p default
  if w.IsClosed then s
  else
    { s with heap := s.heap.set p { w with IsClosed := true, EndTime := s.now },
             pending := s.pending ++ [p] }

/-- `Manager.Start`: install a fresh window for the partition and spawn its
time-based flusher. -/
def MState.startOp (s : MState) (cfg : KafkaTopicConfig) (partition : Int) : MState :=
  let key := keyFor cfg.Name partition
  let w := NewWindow cfg.Name partition s.now cfg.Context
  let p := s.heap.length
  { s with heap := s.heap ++ [w],
           windows := eraseReg s.windows key ++ [(key, p)],
           flushers := s.flushers ++ [p] }

/-- `Manager.AddMessage`: look up (or lazily create) the window for the
message's key, append, then close if the count threshold is reached
(0 disables the threshold). -/
def MState.addMessage (s : MState) (cfg : KafkaTopicConfig) (msg : RawKafkaMessage) : MState :=
  let key := keyFor msg.Topic msg.Partition
  match lookupReg s.windows key with
  | some p =>
      let w := (s.heap.getD p default).AddMessage msg
      let s1 := { s with heap := s.heap.set p w }
      if 0 < cfg.WindowMaxMessages ∧ cfg.WindowMaxMessages ≤ w.MessageCount then
        s1.closeWindow p
      else s1
  | none =>
      let w := (NewWindow msg.Topic msg.Partition msg.Timestamp cfg.Context).AddMessage msg
      let p := s.heap.length
      let s1 := { s with heap := s.heap ++ [w],
                         windows := s.windows ++ [(key, p)],
                         flushers := s.flushers ++ [p] }
      if 0 < cfg.WindowMaxMessages ∧ cfg.WindowMaxMessages ≤ w.MessageCount then
        s1.closeWindow p
      else s1

/-- One `ticker.C` firing of `timeBasedFlusher` for the flusher tied to
pointer `p`: close and exit if the window is still open and the duration
has elapsed, otherwise keep looping (no state change). -/
def MState.tickOp (s : MState) (cfg : KafkaTopicConfig) (p : Nat) : MState :=
  if p ∈ s.flushers ∧ closedAt s p = false
      ∧ cfg.WindowDurationSeconds ≤ s.now - (s.heap.getD p default).StartTime then
    let s1 := s.closeWindow p
    { s1 with flushers := s1.flushers.erase p }
  else s

/-- The `<-m.flushTrigger` branch of `timeBasedFlusher` for the flusher
tied to pointer `p`: consume the signal, close the window if it is still
open, and exit either way.  Disabled (the receive blocks) when no signal
is pending. -/
def MState.flushRecvOp (s : MState) (p : Nat) : MState :=
  if p ∈ s.flushers ∧ s.flushSignal = true then
    let s1 := if closedAt s p = false then s.closeWindow p else s
    { s1 with flushSignal := false, flushers := s1.flushers.erase p }
  else s

/-- The goroutine spawned by `closeWindow`: call
`processor.ProcessWindow(w)` (whose success/failure `res` is only
logged), then delete the key from the registry, install a brand-new
window under the same key, and spawn its flusher. -/
def MState.pendingRunOp (s : MState) (cfg : KafkaTopicConfig) (p : Nat) (res : Bool) : MState :=
  if p ∈ s.pending then
    let w := s.heap.getD p default
    let key := keyFor w.Topic w.Partition
    let q := s.heap.length
    let nw := NewWindow w.Topic w.Partition s.now cfg.Context
    { s with pending := s.pending.erase p,
             processedLog := s.processedLog ++ [(p, res)],
             heap := s.heap ++ [nw],
             windows := eraseReg s.windows key ++ [(key, q)],
             flushers := s.flushers ++ [q] }
  else s

/-- `Manager.FlushAllWindows`: for every open window attempt a
non-blocking send on the single shared capacity-1 `flushTrigger` channel;
a full channel hits the `default:` branch and the request is dropped.
The ghost logs record which key each attempt was made for. -/
def flushAllStep (acc : MState) (kp : String × Nat) : MState :=
  if (acc.heap.getD kp.2 default).IsClosed = false then
    if acc.flushSignal then { acc with flushDropped := acc.flushDropped ++ [kp.1] }
    else { acc with flushSignal := true, flushSent := acc.flushSent ++ [kp.1] }
  else acc

def MState.flushAllOp (s : MState) : MState :=
  s.windows.foldl flushAllStep s

/-- The interleaving alphabet: one label per kind of critical section. -/
inductive Act where
  | startPartition (partition : Int)
  | add (msg : RawKafkaMessage)
  | tick (p : Nat)
  | flushRecv (p : Nat)
  | run (p : Nat) (res : Bool)
  | flushAllW
  | advance (d : Nat)
  deriving Repr, DecidableEq

/-- Apply one step. -/
def MState.applyAct (s : MState) (cfg : KafkaTopicConfig) : Act → MState
  | .startPartition pa => s.startOp cfg pa
  | .add msg => s.addMessage cfg msg
  | .tick p => s.tickOp cfg p
  | .flushRecv p => s.flushRecvOp p
  | .run p res => s.pendingRunOp cfg p res
  | .flushAllW => s.flushAllOp
  | .advance d => { s with now := s.now + d }

/-- Run a whole interleaving from a state. -/
def runTrace (cfg : KafkaTopicConfig) (acts : List Act) (s : MState) : MState :=
  acts.foldl (fun t a => t.applyAct cfg a) s

/-- The hand-off history of a state: windows submitted to the External
Processor, both those whose goroutine has not yet run (`pending`) and
those already processed. -/
def handoffs (s : MState) : List Nat :=
  s.pending ++ s.processedLog.map Prod.fst

/-! ### Pointer and registry lemmas -/

theorem getD_concat_self {α : Type} [Inhabited α] (l : List α) (x : α) :
    (l ++ [x]).getD l.length default = x := by
  rw [List.getD_eq_getElem?_getD, List.getElem?_concat_length]; rfl

theorem getD_append_left {α : Type} [Inhabited α] {l l' : List α} {i : Nat}
    (h : i < l.length) : (l ++ l').getD i default = l.getD i default := by
  rw [List.getD_eq_getElem?_getD, List.getElem?_append_left h,
    ← List.getD_eq_getElem?_getD]

theorem getD_set_self {α : Type} [Inhabited α] {l : List α} {i : Nat} (w : α)
    (h : i < l.length) : (l.set i w).getD i default = w := by
  rw [List.getD_eq_getElem?_getD, List.getElem?_set_self h]; rfl

theorem getD_set_ne {α : Type} [Inhabited α] {l : List α} {i j : Nat} (w : α)
    (h : i ≠ j) : (l.set i w).getD j default = l.getD j default := by
  rw [List.getD_eq_getElem?_getD, List.getElem?_set_ne h, ← List.getD_eq_getElem?_getD]

theorem getD_of_length_le {α : Type} [Inhabited α] {l : List α} {i : Nat}
    (h : l.length ≤ i) : l.getD i default = default := by
  rw [List.getD_eq_getElem?_getD, List.getElem?_eq_none h]; rfl

theorem lookupReg_append (l1 l2 : List (String × Nat)) (k : String) :
    lookupReg (l1 ++ l2) k = (lookupReg l1 k).or (lookupReg l2 k) := by
  induction l1 with
  | nil => rfl
  | cons kp rest ih =>
      obtain ⟨k', p⟩ := kp
      by_cases h : k' = k
      · simp [lookupReg, h]
      · simp [lookupReg, h, ih]

theorem lookupReg_eraseReg_self (l : List (String × Nat)) (k : String) :
    lookupReg (eraseReg l k) k = none := by
  induction l with
  | nil => rfl
  | cons kp rest ih =>
      obtain ⟨k', p⟩ := kp
      unfold eraseReg at ih ⊢
      rw [List.filter_cons]
      by_cases h : k' = k
      · rw [if_neg (by simp [h])]
        exact ih
      · rw [if_pos (by simp [h])]
        simp only [lookupReg, if_neg h]
        exact ih

theorem lookupReg_setEntry (l : List (String × Nat)) (k : String) (q : Nat) :
    lookupReg (eraseReg l k ++ [(k, q)]) k = some q := by
  rw [lookupReg_append, lookupReg_eraseReg_self]
  simp [lookupReg]

/-- `closedAt` only holds for pointers into the heap. -/
theorem closedAt_lt (s : MState) (p : Nat) (h : closedAt s p = true) :
    p < s.heap.length := by
  by_contra h'
  push_neg at h'
  rw [closedAt, getD_of_length_le h'] at h
  exact absurd h (by decide)

/-! ### Concrete executions -/

/-- A topic configuration with count threshold 1. -/
def cfgT1 : KafkaTopicConfig :=
  { Name := "t", Context := "c", WindowDurationSeconds := 100, WindowMaxMessages := 1 }

/-- A topic configuration with the count threshold disabled. -/
def cfgT0 : KafkaTopicConfig :=
  { Name := "t", Context := "c", WindowDurationSeconds := 100, WindowMaxMessages := 0 }

/-- The scenario configuration of the spec: threshold 3, duration 3600. -/
def cfgT3 : KafkaTopicConfig :=
  { Name := "t", Context := "c", WindowDurationSeconds := 3600, WindowMaxMessages := 3 }

def msgA : RawKafkaMessage :=
  { Topic := "t", Partition := 0, Offset := 1, Key := "", Value := "v1", Timestamp := 5 }

def msgB : RawKafkaMessage :=
  { Topic := "t", Partition := 0, Offset := 2, Key := "", Value := "v2", Timestamp := 6 }

def msgC : RawKafkaMessage :=
  { Topic := "t", Partition := 1, Offset := 3, Key := "", Value := "v3", Timestamp := 7 }

def msgD : RawKafkaMessage :=
  { Topic := "t", Partition := 0, Offset := 4, Key := "", Value := "v4", Timestamp := 8 }

def msgE : RawKafkaMessage :=
  { Topic := "t", Partition := 0, Offset := 5, Key := "", Value := "v5", Timestamp := 9 }

/-- C1 counterexample: with threshold 1, ingesting one message triggers a
rotation that completes synchronously inside `AddMessage` (the window is
closed and its processing goroutine is pending), yet the Registry still
maps the key to the closed instance: a lookup performed after the
rotation completed returns the closed window, because removal and
replacement only happen later, inside the processing goroutine. -/
theorem lookup_after_rotate_returns_closed :
    closedAt (runTrace cfgT1 [Act.add msgA] initState) 0 = true
    ∧ lookupReg (runTrace cfgT1 [Act.add msgA] initState).windows "t_0" = some 0
    ∧ (runTrace cfgT1 [Act.add msgA] initState).pending = [0]
    ∧ (runTrace cfgT1 [Act.add msgA] initState).heap.length = 1 := by
  decide

/-- C2 failing execution: with threshold 1, after `AddMessage msgA` the
window at pointer 0 is closed, yet a second `AddMessage msgB` (arriving
before the processing goroutine has replaced the window) appends `msgB`
to that closed window, which is still in the Registry. -/
theorem append_to_closed_window :
    closedAt (runTrace cfgT1 [Act.add msgA] initState) 0 = true
    ∧ ((runTrace cfgT1 [Act.add msgA, Act.add msgB] initState).heap.getD 0
        default).IsClosed = true
    ∧ ((runTrace cfgT1 [Act.add msgA, Act.add msgB] initState).heap.getD 0
        default).Messages = [msgA, msgB]
    ∧ lookupReg (runTrace cfgT1 [Act.add msgA, Act.add msgB] initState).windows "t_0"
        = some 0 := by
  decide

/-- C3 counterexample: with threshold N = 1, after the N messages close
the window, the (N+1)-th ingested message for the same key does NOT land
in a new window: no new window exists at all (heap still has length 1)
and the message was appended to the closed one. -/
theorem next_message_lands_in_closed_window :
    cfgT1.WindowMaxMessages = 1
    ∧ (runTrace cfgT1 [Act.add msgA, Act.add msgB] initState).heap.length = 1
    ∧ ((runTrace cfgT1 [Act.add msgA, Act.add msgB] initState).heap.getD 0
        default).Messages = [msgA, msgB]
    ∧ closedAt (runTrace cfgT1 [Act.add msgA, Act.add msgB] initState) 0 = true := by
  decide

/-- C5 counterexample: two open windows for distinct keys, no flush
pending anywhere, yet `FlushAllWindows` enqueues a request only for the
first key and drops the request for the second: the drop happens although
no flush was pending for that key — the single manager-wide channel was
simply already full with the other key's request. -/
theorem flushAll_drops_other_key :
    (runTrace cfgT0 [Act.add msgA, Act.add msgC] initState).flushSignal = false
    ∧ closedAt (runTrace cfgT0 [Act.add msgA, Act.add msgC] initState) 0 = false
    ∧ closedAt (runTrace cfgT0 [Act.add msgA, Act.add msgC] initState) 1 = false
    ∧ (runTrace cfgT0 [Act.add msgA, Act.add msgC, Act.flushAllW] initState).flushSent
        = ["t_0"]
    ∧ (runTrace cfgT0 [Act.add msgA, Act.add msgC, Act.flushAllW] initState).flushDropped
        = ["t_1"]
    ∧ (runTrace cfgT0 [Act.add msgA, Act.add msgC, Act.flushAllW, Act.flushRecv 0]
        initState).flushSignal = false
    ∧ closedAt (runTrace cfgT0 [Act.add msgA, Act.add msgC, Act.flushAllW, Act.flushRecv 0]
        initState) 1 = false := by
  decide

/-- C1 amended: the removal of the closed entry and the installation of
the brand-new open Window happen inside the asynchronous processing
goroutine, after the External Processor call; once that goroutine has
run, the Registry maps the key to the fresh instance (a different
pointer, open and empty), never the closed one. -/
theorem rotation_installs_fresh_window (cfg : KafkaTopicConfig) (s : MState) (p : Nat)
    (hp : p ∈ s.pending) (hlt : p < s.heap.length) (res : Bool) :
    lookupReg (s.pendingRunOp cfg p res).windows
        (keyFor (s.heap.getD p default).Topic (s.heap.getD p default).Partition)
      = some s.heap.length
    ∧ s.heap.length ≠ p
    ∧ ((s.pendingRunOp cfg p res).heap.getD s.heap.length default)
        = NewWindow (s.heap.getD p default).Topic (s.heap.getD p default).Partition
            s.now cfg.Context
    ∧ ((s.pendingRunOp cfg p res).heap.getD s.heap.length default).IsClosed = false
    ∧ ((s.pendingRunOp cfg p res).heap.getD s.heap.length default).Messages = []
    ∧ (s.pendingRunOp cfg p res).processedLog = s.processedLog ++ [(p, res)] := by
  unfold MState.pendingRunOp
  rw [if_pos hp]
  refine ⟨lookupReg_setEntry _ _ _, by omega, getD_concat_self _ _, ?_, ?_, rfl⟩
  · rw [getD_concat_self]; rfl
  · rw [getD_concat_self]; rfl

/-- Witness for `rotation_installs_fresh_window` on the concrete
threshold-1 execution. -/
theorem rotation_installs_fresh_window_witness :
    lookupReg ((runTrace cfgT1 [Act.add msgA] initState).pendingRunOp cfgT1 0 true).windows
        (keyFor ((runTrace cfgT1 [Act.add msgA] initState).heap.getD 0 default).Topic
          ((runTrace cfgT1 [Act.add msgA] initState).heap.getD 0 default).Partition)
      = some (runTrace cfgT1 [Act.add msgA] initState).heap.length
    ∧ (runTrace cfgT1 [Act.add msgA] initState).heap.length ≠ 0
    ∧ (((runTrace cfgT1 [Act.add msgA] initState).pendingRunOp cfgT1 0 true).heap.getD
        (runTrace cfgT1 [Act.add msgA] initState).heap.length default)
        = NewWindow ((runTrace cfgT1 [Act.add msgA] initState).heap.getD 0 default).Topic
            ((runTrace cfgT1 [Act.add msgA] initState).heap.getD 0 default).Partition
            (runTrace cfgT1 [Act.add msgA] initState).now cfgT1.Context
    ∧ (((runTrace cfgT1 [Act.add msgA] initState).pendingRunOp cfgT1 0 true).heap.getD
        (runTrace cfgT1 [Act.add msgA] initState).heap.length default).IsClosed = false
    ∧ (((runTrace cfgT1 [Act.add msgA] initState).pendingRunOp cfgT1 0 true).heap.getD
        (runTrace cfgT1 [Act.add msgA] initState).heap.length default).Messages = []
    ∧ ((runTrace cfgT1 [Act.add msgA] initState).pendingRunOp cfgT1 0 true).processedLog
        = (runTrace cfgT1 [Act.add msgA] initState).processedLog ++ [(0, true)] :=
  rotation_installs_fresh_window cfgT1 (runTrace cfgT1 [Act.add msgA] initState) 0
    (by decide) (by decide) true

/-- C9: the result of the External Processor call is only logged — the
state reached by the processing goroutine does not depend on it (same
registry, heap, pending set, flushers and flush channel), and in
particular the replacement window is installed whether the call failed
or succeeded.  `rotate` (`closeWindow`) and ingest never see the result
at all: it is not even a parameter of their transitions. -/
theorem processor_error_isolated (cfg : KafkaTopicConfig) (s : MState) (p : Nat) :
    (∀ r1 r2 : Bool,
        (s.pendingRunOp cfg p r1).heap = (s.pendingRunOp cfg p r2).heap
        ∧ (s.pendingRunOp cfg p r1).windows = (s.pendingRunOp cfg p r2).windows
        ∧ (s.pendingRunOp cfg p r1).pending = (s.pendingRunOp cfg p r2).pending
        ∧ (s.pendingRunOp cfg p r1).flushers = (s.pendingRunOp cfg p r2).flushers
        ∧ (s.pendingRunOp cfg p r1).flushSignal = (s.pendingRunOp cfg p r2).flushSignal)
    ∧ (p ∈ s.pending → ∀ res : Bool,
        lookupReg (s.pendingRunOp cfg p res).windows
            (keyFor (s.heap.getD p default).Topic (s.heap.getD p default).Partition)
          = some s.heap.length
        ∧ ((s.pendingRunOp cfg p res).heap.getD s.heap.length default).IsClosed = false) := by
  constructor
  · intro r1 r2
    unfold MState.pendingRunOp
    by_cases hp : p ∈ s.pending
    · rw [if_pos hp, if_pos hp]
      exact ⟨rfl, rfl, rfl, rfl, rfl⟩
    · rw [if_neg hp, if_neg hp]
      exact ⟨rfl, rfl, rfl, rfl, rfl⟩
  · intro hp res
    unfold MState.pendingRunOp
    rw [if_pos hp]
    refine ⟨lookupReg_setEntry _ _ _, ?_⟩
    rw [getD_concat_self]
    rfl

/-- Witness for `processor_error_isolated`'s hypothesis-bearing part. -/
theorem processor_error_isolated_witness :
    lookupReg ((runTrace cfgT1 [Act.add msgA] initState).pendingRunOp cfgT1 0 false).windows
        (keyFor ((runTrace cfgT1 [Act.add msgA] initState).heap.getD 0 default).Topic
          ((runTrace cfgT1 [Act.add msgA] initState).heap.getD 0 default).Partition)
      = some (runTrace cfgT1 [Act.add msgA] initState).heap.length
    ∧ (((runTrace cfgT1 [Act.add msgA] initState).pendingRunOp cfgT1 0 false).heap.getD
        (runTrace cfgT1 [Act.add msgA] initState).heap.length default).IsClosed = false :=
  (processor_error_isolated cfgT1 (runTrace cfgT1 [Act.add msgA] initState) 0).2
    (by decide) false

/-- C8 amended: once its window is closed, a scheduler task never rotates
it again — a timer firing is a complete no-op (the loop does not exit),
and a pending flush signal makes the task exit, consuming the signal,
without performing any rotation or hand-off. -/
theorem scheduler_no_rotation_after_close (cfg : KafkaTopicConfig) :
    (∀ (s : MState) (p : Nat), closedAt s p = true → s.tickOp cfg p = s)
    ∧ (∀ (s : MState) (p : Nat), closedAt s p = true → p ∈ s.flushers →
        s.flushSignal = true →
        s.flushRecvOp p
          = { s with flushSignal := false, flushers := s.flushers.erase p }) := by
  constructor
  · intro s p h
    unfold MState.tickOp
    rw [if_neg]
    intro hcon
    rw [h] at hcon
    exact absurd hcon.2.1 (by decide)
  · intro s p h hmem hsig
    unfold MState.flushRecvOp
    rw [if_pos ⟨hmem, hsig⟩]
    rw [if_neg (by rw [h]; decide)]

/-! ### Step lemmas: field preservation and monotonicity of `IsClosed` -/

theorem addMessage_IsClosed (w : Window) (msg : RawKafkaMessage) :
    (w.AddMessage msg).IsClosed = w.IsClosed := rfl

theorem flushAllStep_fields (acc : MState) (kp : String × Nat) :
    (flushAllStep acc kp).heap = acc.heap
    ∧ (flushAllStep acc kp).windows = acc.windows
    ∧ (flushAllStep acc kp).flushers = acc.flushers
    ∧ (flushAllStep acc kp).pending = acc.pending
    ∧ (flushAllStep acc kp).processedLog = acc.processedLog
    ∧ (flushAllStep acc kp).now = acc.now := by
  unfold flushAllStep
  split
  · split
    · exact ⟨rfl, rfl, rfl, rfl, rfl, rfl⟩
    · exact ⟨rfl, rfl, rfl, rfl, rfl, rfl⟩
  · exact ⟨rfl, rfl, rfl, rfl, rfl, rfl⟩

theorem foldl_flushAllStep_fields (l : List (String × Nat)) :
    ∀ acc : MState,
      (l.foldl flushAllStep acc).heap = acc.heap
      ∧ (l.foldl flushAllStep acc).windows = acc.windows
      ∧ (l.foldl flushAllStep acc).flushers = acc.flushers
      ∧ (l.foldl flushAllStep acc).pending = acc.pending
      ∧ (l.foldl flushAllStep acc).processedLog = acc.processedLog
      ∧ (l.foldl flushAllStep acc).now = acc.now := by
  induction l with
  | nil => intro acc; exact ⟨rfl, rfl, rfl, rfl, rfl, rfl⟩
  | cons kp rest ih =>
      intro acc
      have h1 := flushAllStep_fields acc kp
      have h2 := ih (flushAllStep acc kp)
      simp only [List.foldl_cons]
      exact ⟨h2.1.trans h1.1, h2.2.1.trans h1.2.1, h2.2.2.1.trans h1.2.2.1,
        h2.2.2.2.1.trans h1.2.2.2.1, h2.2.2.2.2.1.trans h1.2.2.2.2.1,
        h2.2.2.2.2.2.trans h1.2.2.2.2.2⟩

theorem flushAllOp_fields (s : MState) :
    s.flushAllOp.heap = s.heap
    ∧ s.flushAllOp.windows = s.windows
    ∧ s.flushAllOp.flushers = s.flushers
    ∧ s.flushAllOp.pending = s.pending
    ∧ s.flushAllOp.processedLog = s.processedLog
    ∧ s.flushAllOp.now = s.now :=
  foldl_flushAllStep_fields s.windows s

/-! Equation lemmas exposing each operation's branches. -/

theorem closeWindow_closed (s : MState) (p : Nat) (h : closedAt s p = true) :
    s.closeWindow p = s := by
  unfold closedAt at h
  show (if (s.heap.getD p default).IsClosed = true then s else _) = s
  rw [if_pos h]

theorem closeWindow_open (s : MState) (p : Nat) (h : closedAt s p = false) :
    s.closeWindow p
      = { s with
            heap := s.heap.set p ({ s.heap.getD p default with IsClosed := true, EndTime := s.now }),
            pending := s.pending ++ [p] } := by
  unfold closedAt at h
  show (if (s.heap.getD p default).IsClosed = true then s else _) = _
  rw [h]
  simp

theorem addMessage_found (s : MState) (cfg : KafkaTopicConfig) (msg : RawKafkaMessage)
    (p : Nat) (hl : lookupReg s.windows (keyFor msg.Topic msg.Partition) = some p) :
    s.addMessage cfg msg
      = if 0 < cfg.WindowMaxMessages ∧
            cfg.WindowMaxMessages ≤ ((s.heap.getD p default).AddMessage msg).MessageCount then
          MState.closeWindow
            ({ s with heap := s.heap.set p ((s.heap.getD p default).AddMessage msg) }) p
        else { s with heap := s.heap.set p ((s.heap.getD p default).AddMessage msg) } := by
  simp only [MState.addMessage]
  rw [hl]

theorem addMessage_fresh (s : MState) (cfg : KafkaTopicConfig) (msg : RawKafkaMessage)
    (hl : lookupReg s.windows (keyFor msg.Topic msg.Partition) = none) :
    s.addMessage cfg msg
      = if 0 < cfg.WindowMaxMessages ∧ cfg.WindowMaxMessages
            ≤ ((NewWindow msg.Topic msg.Partition msg.Timestamp cfg.Context).AddMessage
                msg).MessageCount then
          MState.closeWindow
            ({ s with
                heap := s.heap ++ [(NewWindow msg.Topic msg.Partition msg.Timestamp cfg.Context).AddMessage msg],
                windows := s.windows ++ [(keyFor msg.Topic msg.Partition, s.heap.length)],
                flushers := s.flushers ++ [s.heap.length] }) s.heap.length
        else
          { s with
              heap := s.heap ++ [(NewWindow msg.Topic msg.Partition msg.Timestamp cfg.Context).AddMessage msg],
              windows := s.windows ++ [(keyFor msg.Topic msg.Partition, s.heap.length)],
              flushers := s.flushers ++ [s.heap.length] } := by
  simp only [MState.addMessage]
  rw [hl]

theorem tickOp_pos (s : MState) (cfg : KafkaTopicConfig) (p : Nat)
    (h : p ∈ s.flushers ∧ closedAt s p = false
      ∧ cfg.WindowDurationSeconds ≤ s.now - (s.heap.getD p default).StartTime) :
    s.tickOp cfg p
      = { s.closeWindow p with flushers := (s.closeWindow p).flushers.erase p } := by
  unfold MState.tickOp
  rw [if_pos h]

theorem tickOp_neg (s : MState) (cfg : KafkaTopicConfig) (p : Nat)
    (h : ¬ (p ∈ s.flushers ∧ closedAt s p = false
      ∧ cfg.WindowDurationSeconds ≤ s.now - (s.heap.getD p default).StartTime)) :
    s.tickOp cfg p = s := by
  unfold MState.tickOp
  rw [if_neg h]

theorem flushRecvOp_pos (s : MState) (p : Nat)
    (h : p ∈ s.flushers ∧ s.flushSignal = true) :
    s.flushRecvOp p
      = { (if closedAt s p = false then s.closeWindow p else s) with
          flushSignal := false,
          flushers := (if closedAt s p = false then s.closeWindow p else s).flushers.erase
            p } := by
  unfold MState.flushRecvOp
  rw [if_pos h]

theorem flushRecvOp_neg (s : MState) (p : Nat)
    (h : ¬ (p ∈ s.flushers ∧ s.flushSignal = true)) :
    s.flushRecvOp p = s := by
  unfold MState.flushRecvOp
  rw [if_neg h]

theorem pendingRunOp_pos (s : MState) (cfg : KafkaTopicConfig) (p : Nat) (res : Bool)
    (hp : p ∈ s.pending) :
    s.pendingRunOp cfg p res
      = { s with
            pending := s.pending.erase p,
            processedLog := s.processedLog ++ [(p, res)],
            heap := s.heap ++ [NewWindow (s.heap.getD p default).Topic (s.heap.getD p default).Partition s.now cfg.Context],
            windows := eraseReg s.windows (keyFor (s.heap.getD p default).Topic (s.heap.getD p default).Partition) ++ [(keyFor (s.heap.getD p default).Topic (s.heap.getD p default).Partition, s.heap.length)],
            flushers := s.flushers ++ [s.heap.length] } := by
  unfold MState.pendingRunOp
  rw [if_pos hp]

theorem pendingRunOp_neg (s : MState) (cfg : KafkaTopicConfig) (p : Nat) (res : Bool)
    (hp : p ∉ s.pending) :
    s.pendingRunOp cfg p res = s := by
  unfold MState.pendingRunOp
  rw [if_neg hp]

/-- The closed flag of any window never reverts across `closeWindow`. -/
theorem closedAt_closeWindow (s : MState) (p q : Nat) (h : closedAt s q = true) :
    closedAt (s.closeWindow p) q = true := by
  cases hc : closedAt s p with
  | true => rw [closeWindow_closed s p hc]; exact h
  | false =>
      rw [closeWindow_open s p hc]
      unfold closedAt at h ⊢
      simp only
      by_cases hpl : p < s.heap.length
      · by_cases hq : p = q
        · subst hq; rw [getD_set_self _ hpl]
        · rw [getD_set_ne _ hq]; exact h
      · rw [List.set_eq_of_length_le (by omega)]; exact h

/-- Appending a message never changes the closed flag. -/
theorem closedAt_set_addMessage (s : MState) (p q : Nat) (msg : RawKafkaMessage)
    (h : closedAt s q = true) :
    closedAt { s with heap := s.heap.set p ((s.heap.getD p default).AddMessage msg) } q
      = true := by
  unfold closedAt at h ⊢
  simp only
  by_cases hpq : p = q
  · subst hpq
    by_cases hpl : p < s.heap.length
    · rw [getD_set_self _ hpl, addMessage_IsClosed]; exact h
    · rw [List.set_eq_of_length_le (by omega)]; exact h
  · rw [getD_set_ne _ hpq]; exact h

/-- The closed flag of any window never reverts across any step: once a
Window instance is closed it stays closed forever. -/
theorem closedAt_applyAct_mono (cfg : KafkaTopicConfig) (a : Act) (s : MState) (q : Nat)
    (h : closedAt s q = true) : closedAt (s.applyAct cfg a) q = true := by
  have hq : q < s.heap.length := closedAt_lt s q h
  cases a with
  | startPartition pa =>
      show closedAt (s.startOp cfg pa) q = true
      unfold MState.startOp closedAt at *
      simp only
      rw [getD_append_left hq]
      exact h
  | add msg =>
      show closedAt (s.addMessage cfg msg) q = true
      cases hl : lookupReg s.windows (keyFor msg.Topic msg.Partition) with
      | some p =>
          rw [addMessage_found s cfg msg p hl]
          have hs1 := closedAt_set_addMessage s p q msg h
          split
          · exact closedAt_closeWindow _ p q hs1
          · exact hs1
      | none =>
          rw [addMessage_fresh s cfg msg hl]
          have hs1 : closedAt { s with
              heap := s.heap ++ [(NewWindow msg.Topic msg.Partition msg.Timestamp
                cfg.Context).AddMessage msg],
              windows := s.windows ++ [(keyFor msg.Topic msg.Partition, s.heap.length)],
              flushers := s.flushers ++ [s.heap.length] } q = true := by
            unfold closedAt at h ⊢
            simp only
            rw [getD_append_left hq]
            exact h
          split
          · exact closedAt_closeWindow _ _ q hs1
          · exact hs1
  | tick p =>
      show closedAt (s.tickOp cfg p) q = true
      by_cases hcond : p ∈ s.flushers ∧ closedAt s p = false
          ∧ cfg.WindowDurationSeconds ≤ s.now - (s.heap.getD p default).StartTime
      · rw [tickOp_pos s cfg p hcond]
        have := closedAt_closeWindow s p q h
        unfold closedAt at this ⊢
        simp only
        exact this
      · rw [tickOp_neg s cfg p hcond]; exact h
  | flushRecv p =>
      show closedAt (s.flushRecvOp p) q = true
      by_cases hcond : p ∈ s.flushers ∧ s.flushSignal = true
      · rw [flushRecvOp_pos s p hcond]
        unfold closedAt
        simp only
        split
        · have := closedAt_closeWindow s p q h
          unfold closedAt at this
          exact this
        · exact h
      · rw [flushRecvOp_neg s p hcond]; exact h
  | run p res =>
      show closedAt (s.pendingRunOp cfg p res) q = true
      by_cases hp : p ∈ s.pending
      · rw [pendingRunOp_pos s cfg p res hp]
        unfold closedAt at h ⊢
        simp only
        rw [getD_append_left hq]
        exact h
      · rw [pendingRunOp_neg s cfg p res hp]; exact h
  | flushAllW =>
      show closedAt s.flushAllOp q = true
      unfold closedAt at h ⊢
      rw [(flushAllOp_fields s).1]
      exact h
  | advance d =>
      exact h

/-- A successful registry lookup returns an entry of the registry. -/
theorem lookupReg_mem (l : List (String × Nat)) (k : String) (p : Nat)
    (h : lookupReg l k = some p) : (k, p) ∈ l := by
  induction l with
  | nil => exact absurd h (by simp [lookupReg])
  | cons kp rest ih =>
      obtain ⟨k', p'⟩ := kp
      by_cases hk : k' = k
      · subst hk
        simp only [lookupReg, if_pos rfl] at h
        cases h
        exact List.mem_cons_self _ _
      · simp only [lookupReg, if_neg hk] at h
        exact List.mem_cons_of_mem _ (ih h)

/-- `closeWindow` touches only the heap entry and the pending list. -/
theorem closeWindow_fields (s : MState) (q : Nat) :
    (s.closeWindow q).flushers = s.flushers
    ∧ (s.closeWindow q).flushSignal = s.flushSignal
    ∧ (s.closeWindow q).windows = s.windows
    ∧ (s.closeWindow q).now = s.now
    ∧ (s.closeWindow q).heap.length = s.heap.length
    ∧ (s.closeWindow q).processedLog = s.processedLog
    ∧ (s.closeWindow q).flushSent = s.flushSent
    ∧ (s.closeWindow q).flushDropped = s.flushDropped := by
  cases hc : closedAt s q with
  | true =>
      rw [closeWindow_closed s q hc]
      exact ⟨rfl, rfl, rfl, rfl, rfl, rfl, rfl, rfl⟩
  | false =>
      rw [closeWindow_open s q hc]
      exact ⟨rfl, rfl, rfl, rfl, by simp, rfl, rfl, rfl⟩

/-- One step that is not `FlushAllWindows` keeps a leaked flusher leaked:
if task `p`'s window is closed and no flush signal is pending, `p` stays
registered as a flusher, the flush channel stays empty, and the window
stays closed. -/
theorem leaked_flusher_step (cfg : KafkaTopicConfig) (a : Act) (ha : a ≠ Act.flushAllW)
    (s : MState) (p : Nat) (hmem : p ∈ s.flushers) (hsig : s.flushSignal = false)
    (hcl : closedAt s p = true) :
    p ∈ (s.applyAct cfg a).flushers ∧ (s.applyAct cfg a).flushSignal = false
      ∧ closedAt (s.applyAct cfg a) p = true := by
  have hflu : p ∈ (s.applyAct cfg a).flushers := by
    cases a with
    | startPartition pa =>
        show p ∈ (s.startOp cfg pa).flushers
        unfold MState.startOp
        simp only
        exact List.mem_append_left _ hmem
    | add msg =>
        show p ∈ (s.addMessage cfg msg).flushers
        cases hl : lookupReg s.windows (keyFor msg.Topic msg.Partition) with
        | some q =>
            rw [addMessage_found s cfg msg q hl]
            split
            · rw [(closeWindow_fields _ q).1]; exact hmem
            · exact hmem
        | none =>
            rw [addMessage_fresh s cfg msg hl]
            split
            · rw [(closeWindow_fields _ _).1]
              exact List.mem_append_left _ hmem
            · exact List.mem_append_left _ hmem
    | tick q =>
        show p ∈ (s.tickOp cfg q).flushers
        by_cases hcond : q ∈ s.flushers ∧ closedAt s q = false
            ∧ cfg.WindowDurationSeconds ≤ s.now - (s.heap.getD q default).StartTime
        · rw [tickOp_pos s cfg q hcond]
          simp only
          rw [(closeWindow_fields s q).1]
          have hne : p ≠ q := by
            intro hpq
            rw [hpq] at hcl
            rw [hcl] at hcond
            exact absurd hcond.2.1 (by decide)
          exact (List.mem_erase_of_ne hne).mpr hmem
        · rw [tickOp_neg s cfg q hcond]; exact hmem
    | flushRecv q =>
        show p ∈ (s.flushRecvOp q).flushers
        rw [flushRecvOp_neg s q (by rw [hsig]; simp)]
        exact hmem
    | run q res =>
        show p ∈ (s.pendingRunOp cfg q res).flushers
        by_cases hq : q ∈ s.pending
        · rw [pendingRunOp_pos s cfg q res hq]
          exact List.mem_append_left _ hmem
        · rw [pendingRunOp_neg s cfg q res hq]; exact hmem
    | flushAllW => exact absurd rfl ha
    | advance d => exact hmem
  have hsg : (s.applyAct cfg a).flushSignal = false := by
    cases a with
    | startPartition pa => exact hsig
    | add msg =>
        show (s.addMessage cfg msg).flushSignal = false
        cases hl : lookupReg s.windows (keyFor msg.Topic msg.Partition) with
        | some q =>
            rw [addMessage_found s cfg msg q hl]
            split
            · rw [(closeWindow_fields _ q).2.1]; exact hsig
            · exact hsig
        | none =>
            rw [addMessage_fresh s cfg msg hl]
            split
            · rw [(closeWindow_fields _ _).2.1]; exact hsig
            · exact hsig
    | tick q =>
        show (s.tickOp cfg q).flushSignal = false
        by_cases hcond : q ∈ s.flushers ∧ closedAt s q = false
            ∧ cfg.WindowDurationSeconds ≤ s.now - (s.heap.getD q default).StartTime
        · rw [tickOp_pos s cfg q hcond]
          simp only
          rw [(closeWindow_fields s q).2.1]
          exact hsig
        · rw [tickOp_neg s cfg q hcond]; exact hsig
    | flushRecv q =>
        show (s.flushRecvOp q).flushSignal = false
        rw [flushRecvOp_neg s q (by rw [hsig]; simp)]
        exact hsig
    | run q res =>
        show (s.pendingRunOp cfg q res).flushSignal = false
        by_cases hq : q ∈ s.pending
        · rw [pendingRunOp_pos s cfg q res hq]; exact hsig
        · rw [pendingRunOp_neg s cfg q res hq]; exact hsig
    | flushAllW => exact absurd rfl ha
    | advance d => exact hsig
  exact ⟨hflu, hsg, closedAt_applyAct_mono cfg a s p hcl⟩

/-- Over any interleaving containing no `FlushAllWindows` call, a leaked
flusher never exits. -/
theorem leaked_flusher_trace (cfg : KafkaTopicConfig) (p : Nat) :
    ∀ (acts : List Act), (∀ a ∈ acts, a ≠ Act.flushAllW) →
      ∀ s : MState, p ∈ s.flushers → s.flushSignal = false → closedAt s p = true →
        p ∈ (runTrace cfg acts s).flushers
        ∧ (runTrace cfg acts s).flushSignal = false
        ∧ closedAt (runTrace cfg acts s) p = true := by
  intro acts
  induction acts with
  | nil => intro _ s h1 h2 h3; exact ⟨h1, h2, h3⟩
  | cons a rest ih =>
      intro hall s h1 h2 h3
      have ha := hall a (List.mem_cons_self a rest)
      have step := leaked_flusher_step cfg a ha s p h1 h2 h3
      have htail := ih (fun b hb => hall b (List.mem_cons_of_mem a hb))
        (s.applyAct cfg a) step.1 step.2.1 step.2.2
      simpa [runTrace, List.foldl_cons] using htail

/-- Appending a message to a heap slot changes no closed flag. -/
theorem closedAt_set_addMessage_eq (s : MState) (p q : Nat) (msg : RawKafkaMessage) :
    closedAt { s with heap := s.heap.set p ((s.heap.getD p default).AddMessage msg) } q
      = closedAt s q := by
  unfold closedAt
  simp only
  by_cases hpq : p = q
  · subst hpq
    by_cases hpl : p < s.heap.length
    · rw [getD_set_self _ hpl, addMessage_IsClosed]
    · rw [List.set_eq_of_length_le (by omega)]
  · rw [getD_set_ne _ hpq]

/-- Appending a fresh open window to the heap changes no closed flag. -/
theorem closed_getD_append_open (h : List Window) (w : Window) (hw : w.IsClosed = false)
    (q : Nat) : ((h ++ [w]).getD q default).IsClosed = (h.getD q default).IsClosed := by
  rcases Nat.lt_trichotomy q h.length with hlt | heq | hgt
  · rw [getD_append_left hlt]
  · subst heq
    rw [getD_concat_self, getD_of_length_le (Nat.le_refl _), hw]
    rfl
  · rw [getD_of_length_le (show (h ++ [w]).length ≤ q by simp; omega),
      getD_of_length_le (by omega)]

/-- The C4 invariant: every closed window instance has been handed to the
External Processor exactly once (either its goroutine is still pending or
it has been processed), every open or nonexistent instance zero times;
registry entries and flusher tasks point into the heap. -/
def InvC4 (s : MState) : Prop :=
  (∀ p : Nat, (handoffs s).count p = if closedAt s p = true then 1 else 0)
  ∧ (∀ kp ∈ s.windows, kp.2 < s.heap.length)
  ∧ (∀ p ∈ s.flushers, p < s.heap.length)

theorem invC4_init : InvC4 initState := by
  refine ⟨?_, ?_, ?_⟩
  · intro p
    have : closedAt initState p = false := by
      unfold closedAt initState
      rw [getD_of_length_le (by simp)]
      rfl
    rw [this]
    rfl
  · intro kp hkp; exact absurd hkp (by simp [initState])
  · intro p hp; exact absurd hp (by simp [initState])

theorem invC4_closeWindow (s : MState) (p : Nat) (hp : p < s.heap.length)
    (h : InvC4 s) : InvC4 (s.closeWindow p) := by
  obtain ⟨h1, h2, h3⟩ := h
  cases hc : closedAt s p with
  | true => rw [closeWindow_closed s p hc]; exact ⟨h1, h2, h3⟩
  | false =>
      rw [closeWindow_open s p hc]
      refine ⟨?_, ?_, ?_⟩
      · intro q
        have hq := h1 q
        simp only [handoffs] at hq ⊢
        by_cases hqp : q = p
        · subst hqp
          have hcl : closedAt { s with
              heap := s.heap.set q ({ s.heap.getD q default with IsClosed := true, EndTime := s.now }),
              pending := s.pending ++ [q] } q = true := by
            unfold closedAt
            simp only
            rw [getD_set_self _ hp]
          rw [hcl]
          rw [hc] at hq
          simp only [List.count_append] at hq ⊢
          simp at hq ⊢
          omega
        · have hpq2 : p ≠ q := fun hh => hqp (Eq.symm hh)
          have hcl : closedAt { s with
              heap := s.heap.set p ({ s.heap.getD p default with IsClosed := true, EndTime := s.now }),
              pending := s.pending ++ [p] } q = closedAt s q := by
            unfold closedAt
            simp only
            rw [getD_set_ne _ hpq2]
          rw [hcl]
          simp only [List.count_append] at hq ⊢
          have hbeq : (p == q) = false := by simp [hpq2]
          have hcnt : List.count q [p] = 0 := by simp [List.count_singleton, hbeq]
          rw [hcnt, Nat.add_zero]
          exact hq
      · intro kp hkp
        simp only at hkp ⊢
        rw [List.length_set]
        exact h2 kp hkp
      · intro q hq
        simp only at hq ⊢
        rw [List.length_set]
        exact h3 q hq

theorem invC4_addMessage (s : MState) (cfg : KafkaTopicConfig) (msg : RawKafkaMessage)
    (h : InvC4 s) : InvC4 (s.addMessage cfg msg) := by
  obtain ⟨h1, h2, h3⟩ := h
  cases hl : lookupReg s.windows (keyFor msg.Topic msg.Partition) with
  | some p =>
      have hp : p < s.heap.length := h2 _ (lookupReg_mem _ _ _ hl)
      rw [addMessage_found s cfg msg p hl]
      have hs1 : InvC4 { s with
          heap := s.heap.set p ((s.heap.getD p default).AddMessage msg) } := by
        refine ⟨?_, ?_, ?_⟩
        · intro q
          have hq := h1 q
          simp only [handoffs] at hq ⊢
          rw [closedAt_set_addMessage_eq]
          exact hq
        · intro kp hkp
          simp only at hkp ⊢
          rw [List.length_set]
          exact h2 kp hkp
        · intro q hqf
          simp only at hqf ⊢
          rw [List.length_set]
          exact h3 q hqf
      split
      · exact invC4_closeWindow _ p (by simp only; rw [List.length_set]; exact hp) hs1
      · exact hs1
  | none =>
      rw [addMessage_fresh s cfg msg hl]
      have hwopen : ((NewWindow msg.Topic msg.Partition msg.Timestamp
          cfg.Context).AddMessage msg).IsClosed = false := rfl
      have hs1 : InvC4 { s with
          heap := s.heap ++ [(NewWindow msg.Topic msg.Partition msg.Timestamp cfg.Context).AddMessage msg],
          windows := s.windows ++ [(keyFor msg.Topic msg.Partition, s.heap.length)],
          flushers := s.flushers ++ [s.heap.length] } := by
        refine ⟨?_, ?_, ?_⟩
        · intro q
          have hq := h1 q
          simp only [handoffs] at hq ⊢
          have hcl : closedAt { s with
              heap := s.heap ++ [(NewWindow msg.Topic msg.Partition msg.Timestamp cfg.Context).AddMessage msg],
              windows := s.windows ++ [(keyFor msg.Topic msg.Partition, s.heap.length)],
              flushers := s.flushers ++ [s.heap.length] } q = closedAt s q := by
            unfold closedAt
            simp only
            exact closed_getD_append_open _ _ hwopen q
          rw [hcl]
          exact hq
        · intro kp hkp
          simp only at hkp ⊢
          rcases List.mem_append.mp hkp with hold | hnew
          · have := h2 kp hold
            simp only [List.length_append, List.length_cons, List.length_nil]
            omega
          · simp at hnew
            have : kp.2 = s.heap.length := by rw [hnew]
            simp only [List.length_append, List.length_cons, List.length_nil]
            omega
        · intro q hqf
          simp only at hqf ⊢
          rcases List.mem_append.mp hqf with hold | hnew
          · have := h3 q hold
            simp only [List.length_append, List.length_cons, List.length_nil]
            omega
          · simp at hnew
            subst hnew
            simp only [List.length_append, List.length_cons, List.length_nil]
            omega
      split
      · refine invC4_closeWindow _ _ ?_ hs1
        simp only
        simp only [List.length_append, List.length_cons, List.length_nil]
        omega
      · exact hs1

theorem invC4_start (s : MState) (cfg : KafkaTopicConfig) (pa : Int)
    (h : InvC4 s) : InvC4 (s.startOp cfg pa) := by
  obtain ⟨h1, h2, h3⟩ := h
  unfold MState.startOp
  simp only
  refine ⟨?_, ?_, ?_⟩
  · intro q
    have hq := h1 q
    simp only [handoffs] at hq ⊢
    have hcl : closedAt { s with
        heap := s.heap ++ [NewWindow cfg.Name pa s.now cfg.Context],
        windows := eraseReg s.windows (keyFor cfg.Name pa) ++ [(keyFor cfg.Name pa, s.heap.length)],
        flushers := s.flushers ++ [s.heap.length] } q = closedAt s q := by
      unfold closedAt
      simp only
      exact closed_getD_append_open _ _ rfl q
    rw [hcl]
    exact hq
  · intro kp hkp
    simp only at hkp ⊢
    rcases List.mem_append.mp hkp with hold | hnew
    · have := h2 kp (List.mem_of_mem_filter hold)
      simp only [List.length_append, List.length_cons, List.length_nil]
      omega
    · simp at hnew
      have : kp.2 = s.heap.length := by rw [hnew]
      simp only [List.length_append, List.length_cons, List.length_nil]
      omega
  · intro q hqf
    simp only at hqf ⊢
    rcases List.mem_append.mp hqf with hold | hnew
    · have := h3 q hold
      simp only [List.length_append, List.length_cons, List.length_nil]
      omega
    · simp at hnew
      subst hnew
      simp only [List.length_append, List.length_cons, List.length_nil]
      omega

theorem invC4_tick (s : MState) (cfg : KafkaTopicConfig) (p : Nat)
    (h : InvC4 s) : InvC4 (s.tickOp cfg p) := by
  by_cases hcond : p ∈ s.flushers ∧ closedAt s p = false
      ∧ cfg.WindowDurationSeconds ≤ s.now - (s.heap.getD p default).StartTime
  · rw [tickOp_pos s cfg p hcond]
    have hp : p < s.heap.length := h.2.2 p hcond.1
    obtain ⟨g1, g2, g3⟩ := invC4_closeWindow s p hp h
    refine ⟨?_, ?_, ?_⟩
    · intro q
      have := g1 q
      simp only [handoffs, closedAt] at this ⊢
      exact this
    · intro kp hkp
      exact g2 kp hkp
    · intro q hqf
      simp only at hqf
      exact g3 q (List.mem_of_mem_erase hqf)
  · rw [tickOp_neg s cfg p hcond]
    exact h

theorem invC4_flushRecv (s : MState) (p : Nat) (h : InvC4 s) :
    InvC4 (s.flushRecvOp p) := by
  by_cases hcond : p ∈ s.flushers ∧ s.flushSignal = true
  · rw [flushRecvOp_pos s p hcond]
    have ht : InvC4 (if closedAt s p = false then s.closeWindow p else s) := by
      split
      · exact invC4_closeWindow s p (h.2.2 p hcond.1) h
      · exact h
    obtain ⟨g1, g2, g3⟩ := ht
    refine ⟨?_, ?_, ?_⟩
    · intro q
      have := g1 q
      simp only [handoffs, closedAt] at this ⊢
      exact this
    · intro kp hkp
      exact g2 kp hkp
    · intro q hqf
      simp only at hqf
      exact g3 q (List.mem_of_mem_erase hqf)
  · rw [flushRecvOp_neg s p hcond]
    exact h

theorem invC4_pendingRun (s : MState) (cfg : KafkaTopicConfig) (p : Nat) (res : Bool)
    (h : InvC4 s) : InvC4 (s.pendingRunOp cfg p res) := by
  obtain ⟨h1, h2, h3⟩ := h
  by_cases hp : p ∈ s.pending
  · have hpc : 0 < List.count p (handoffs s) :=
      List.count_pos_iff.mpr (List.mem_append_left _ hp)
    have hclp : closedAt s p = true := by
      cases hcl : closedAt s p with
      | true => rfl
      | false =>
          have := h1 p
          rw [hcl] at this
          simp at this
          omega
    have hplen : p < s.heap.length := closedAt_lt s p hclp
    have hsum : List.count p s.pending + List.count p (s.processedLog.map Prod.fst) = 1 := by
      have hh := h1 p
      rw [hclp] at hh
      simp only [handoffs, List.count_append] at hh
      simpa using hh
    have hpend1 : 0 < List.count p s.pending := List.count_pos_iff.mpr hp
    rw [pendingRunOp_pos s cfg p res hp]
    refine ⟨?_, ?_, ?_⟩
    · intro q
      have hq := h1 q
      simp only [handoffs] at hq ⊢
      have hmap : (s.processedLog ++ [(p, res)]).map Prod.fst
          = s.processedLog.map Prod.fst ++ [p] := by simp
      rw [hmap]
      have hclrec : closedAt { s with
          pending := s.pending.erase p,
          processedLog := s.processedLog ++ [(p, res)],
          heap := s.heap ++ [NewWindow (s.heap.getD p default).Topic (s.heap.getD p default).Partition s.now cfg.Context],
          windows := eraseReg s.windows (keyFor (s.heap.getD p default).Topic (s.heap.getD p default).Partition) ++ [(keyFor (s.heap.getD p default).Topic (s.heap.getD p default).Partition, s.heap.length)],
          flushers := s.flushers ++ [s.heap.length] } q = closedAt s q := by
        unfold closedAt
        simp only
        exact closed_getD_append_open _ _ rfl q
      rw [hclrec]
      by_cases hqp : q = p
      · rw [hqp, hclp]
        simp only [List.count_append, List.count_erase_self]
        have hone : List.count p [p] = 1 := by simp
        rw [hone]
        simp only [if_true]
        omega
      · have hqp2 : q ≠ p := hqp
        simp only [List.count_append]
        rw [List.count_erase_of_ne hqp2]
        have hcnt0 : List.count q [p] = 0 := by
          simp [List.count_singleton]
          intro hh
          exact absurd hh.symm hqp2
        rw [hcnt0, Nat.add_zero]
        simp only [handoffs, List.count_append] at hq
        exact hq
    · intro kp hkp
      simp only at hkp ⊢
      rcases List.mem_append.mp hkp with hold | hnew
      · have := h2 kp (List.mem_of_mem_filter hold)
        simp only [List.length_append, List.length_cons, List.length_nil]
        omega
      · simp at hnew
        have : kp.2 = s.heap.length := by rw [hnew]
        simp only [List.length_append, List.length_cons, List.length_nil]
        omega
    · intro q hqf
      simp only at hqf ⊢
      rcases List.mem_append.mp hqf with hold | hnew
      · have := h3 q hold
        simp only [List.length_append, List.length_cons, List.length_nil]
        omega
      · simp at hnew
        subst hnew
        simp only [List.length_append, List.length_cons, List.length_nil]
        omega
  · rw [pendingRunOp_neg s cfg p res hp]
    exact ⟨h1, h2, h3⟩

theorem invC4_flushAll (s : MState) (h : InvC4 s) : InvC4 s.flushAllOp := by
  obtain ⟨h1, h2, h3⟩ := h
  have hf := flushAllOp_fields s
  refine ⟨?_, ?_, ?_⟩
  · intro q
    have hq := h1 q
    simp only [handoffs, closedAt] at hq ⊢
    simp only [hf.1, hf.2.2.2.1, hf.2.2.2.2.1]
    exact hq
  · intro kp hkp
    rw [hf.2.1] at hkp
    rw [hf.1]
    exact h2 kp hkp
  · intro q hqf
    rw [hf.2.2.1] at hqf
    rw [hf.1]
    exact h3 q hqf

theorem invC4_applyAct (cfg : KafkaTopicConfig) (a : Act) (s : MState)
    (h : InvC4 s) : InvC4 (s.applyAct cfg a) := by
  cases a with
  | startPartition pa => exact invC4_start s cfg pa h
  | add msg => exact invC4_addMessage s cfg msg h
  | tick p => exact invC4_tick s cfg p h
  | flushRecv p => exact invC4_flushRecv s p h
  | run p res => exact invC4_pendingRun s cfg p res h
  | flushAllW => exact invC4_flushAll s h
  | advance d => exact h

theorem invC4_runTrace (cfg : KafkaTopicConfig) (acts : List Act) :
    ∀ s : MState, InvC4 s → InvC4 (runTrace cfg acts s) := by
  induction acts with
  | nil => intro s h; exact h
  | cons a rest ih =>
      intro s h
      have := ih (s.applyAct cfg a) (invC4_applyAct cfg a s h)
      simpa [runTrace, List.foldl_cons] using this

theorem invC4_reachable (cfg : KafkaTopicConfig) (acts : List Act) :
    InvC4 (runTrace cfg acts initState) :=
  invC4_runTrace cfg acts initState invC4_init

/-- C4: rotation is idempotent — `closeWindow` on an already-closed window
is a no-op (whichever competing trigger loses observes the closed flag and
does nothing; every call site holds the Manager mutex, so the
check-and-set is atomic in the model) — and in every reachable state every
closed window instance has exactly one hand-off to the External Processor
(pending or performed), every open one none. -/
theorem rotate_idempotent_single_handoff (cfg : KafkaTopicConfig) :
    (∀ (s : MState) (p : Nat), closedAt s p = true → s.closeWindow p = s)
    ∧ ∀ (acts : List Act) (p : Nat),
        (handoffs (runTrace cfg acts initState)).count p
          = if closedAt (runTrace cfg acts initState) p = true then 1 else 0 :=
  ⟨closeWindow_closed, fun acts p => (invC4_reachable cfg acts).1 p⟩

/-- Witness for `rotate_idempotent_single_handoff`: after the
threshold-1 execution the closed window 0 is rotated again as a no-op and
has exactly one hand-off. -/
theorem rotate_idempotent_single_handoff_witness :
    (runTrace cfgT1 [Act.add msgA] initState).closeWindow 0
        = runTrace cfgT1 [Act.add msgA] initState
    ∧ (handoffs (runTrace cfgT1 [Act.add msgA] initState)).count 0 = 1 := by
  constructor
  · exact (rotate_idempotent_single_handoff cfgT1).1 _ 0 (by decide)
  · have hh := (rotate_idempotent_single_handoff cfgT1).2 [Act.add msgA] 0
    rw [hh]
    decide

/-- The keys of the open windows among the registry entries `l`, reading
window state from heap `H` — the windows for which `FlushAllWindows`
attempts a non-blocking send. -/
def openKeysIn (H : List Window) (l : List (String × Nat)) : List String :=
  (l.filter (fun kp => !(H.getD kp.2 default).IsClosed)).map Prod.fst

/-- The keys of the currently open registered windows. -/
def openKeys (s : MState) : List String := openKeysIn s.heap s.windows

theorem flushAllStep_open_sent (acc : MState) (kp : String × Nat)
    (hop : (acc.heap.getD kp.2 default).IsClosed = false) (hsig : acc.flushSignal = false) :
    flushAllStep acc kp
      = { acc with flushSignal := true, flushSent := acc.flushSent ++ [kp.1] } := by
  unfold flushAllStep
  rw [if_pos hop, hsig]
  simp

theorem flushAllStep_open_dropped (acc : MState) (kp : String × Nat)
    (hop : (acc.heap.getD kp.2 default).IsClosed = false) (hsig : acc.flushSignal = true) :
    flushAllStep acc kp = { acc with flushDropped := acc.flushDropped ++ [kp.1] } := by
  unfold flushAllStep
  rw [if_pos hop, hsig]
  simp

theorem flushAllStep_closed (acc : MState) (kp : String × Nat)
    (hcl : (acc.heap.getD kp.2 default).IsClosed = true) :
    flushAllStep acc kp = acc := by
  unfold flushAllStep
  rw [hcl]
  simp

theorem flushAll_fold_spec (H : List Window) (l : List (String × Nat)) :
    ∀ acc : MState, acc.heap = H →
      (l.foldl flushAllStep acc).flushSignal = (acc.flushSignal || !(openKeysIn H l).isEmpty)
      ∧ (l.foldl flushAllStep acc).flushSent
          = acc.flushSent ++ (if acc.flushSignal = true then [] else (openKeysIn H l).take 1)
      ∧ (l.foldl flushAllStep acc).flushDropped
          = acc.flushDropped
            ++ (if acc.flushSignal = true then openKeysIn H l
                else (openKeysIn H l).drop 1) := by
  induction l with
  | nil =>
      intro acc hacc
      refine ⟨by simp [openKeysIn], ?_, ?_⟩
      · simp only [List.foldl_nil, openKeysIn, List.filter_nil, List.map_nil, List.take_nil]
        split <;> simp
      · simp only [List.foldl_nil, openKeysIn, List.filter_nil, List.map_nil, List.drop_nil]
        split <;> simp
  | cons kp rest ih =>
      intro acc hacc
      rw [List.foldl_cons]
      by_cases hop : (H.getD kp.2 default).IsClosed = false
      · have hopacc : (acc.heap.getD kp.2 default).IsClosed = false := by rw [hacc]; exact hop
        have hkeys : openKeysIn H (kp :: rest) = kp.1 :: openKeysIn H rest := by
          unfold openKeysIn
          rw [List.filter_cons,
            if_pos (show (!(H.getD kp.2 default).IsClosed) = true by rw [hop]; rfl)]
          simp
        cases hsig : acc.flushSignal with
        | true =>
            rw [flushAllStep_open_dropped acc kp hopacc hsig]
            have ihh := ih { acc with flushDropped := acc.flushDropped ++ [kp.1] } hacc
            refine ⟨?_, ?_, ?_⟩
            · rw [ihh.1]
              simp [hsig]
            · rw [ihh.2.1]
              simp [hsig]
            · rw [ihh.2.2]
              simp only [hsig, if_pos rfl, hkeys]
              simp
        | false =>
            rw [flushAllStep_open_sent acc kp hopacc hsig]
            have ihh := ih { acc with flushSignal := true, flushSent := acc.flushSent ++ [kp.1] } hacc
            refine ⟨?_, ?_, ?_⟩
            · rw [ihh.1]
              simp [hsig, hkeys]
            · rw [ihh.2.1]
              simp only [hsig, hkeys]
              simp
            · rw [ihh.2.2]
              simp only [hsig, hkeys]
              simp
      · have hcl : (H.getD kp.2 default).IsClosed = true := by
          cases hc : (H.getD kp.2 default).IsClosed with
          | true => rfl
          | false => exact absurd hc hop
        have hclacc : (acc.heap.getD kp.2 default).IsClosed = true := by rw [hacc]; exact hcl
        rw [flushAllStep_closed acc kp hclacc]
        have hkeys : openKeysIn H (kp :: rest) = openKeysIn H rest := by
          unfold openKeysIn
          rw [List.filter_cons,
            if_neg (show ¬ (!(H.getD kp.2 default).IsClosed) = true by rw [hcl]; simp)]
        rw [hkeys]
        exact ih acc hacc

/-- C5 amended: `FlushAllWindows` attempts a non-blocking send for every
currently open window onto the one manager-wide capacity-1 channel, so at
most one request total can be enqueued per invocation: afterwards a
signal is pending iff one was already pending or some window was open;
when no signal was pending, exactly the first open key's request is
enqueued and the requests of all other open keys are dropped; when one
was already pending, every open key's request is dropped — regardless of
which key the pending request was for. -/
theorem flushAll_single_shared_signal (s : MState) :
    s.flushAllOp.flushSignal = (s.flushSignal || !(openKeys s).isEmpty)
    ∧ s.flushAllOp.flushSent
        = s.flushSent ++ (if s.flushSignal = true then [] else (openKeys s).take 1)
    ∧ s.flushAllOp.flushDropped
        = s.flushDropped
          ++ (if s.flushSignal = true then openKeys s else (openKeys s).drop 1) :=
  flushAll_fold_spec s.heap s.windows s rfl

theorem runTrace_cons (cfg : KafkaTopicConfig) (a : Act) (acts : List Act) (s : MState) :
    runTrace cfg (a :: acts) s = runTrace cfg acts (s.applyAct cfg a) := rfl

theorem runTrace_nil (cfg : KafkaTopicConfig) (s : MState) :
    runTrace cfg [] s = s := rfl

theorem applyAct_add (s : MState) (cfg : KafkaTopicConfig) (msg : RawKafkaMessage) :
    s.applyAct cfg (Act.add msg) = s.addMessage cfg msg := rfl

/-- Ingesting a nonempty batch of same-key messages into an existing open
window whose current count plus the batch size is exactly the threshold:
every message is appended in order and the last one triggers the
synchronous rotation, leaving the window closed, with count `N`, still in
the Registry, and with its hand-off pending. -/
theorem ingest_to_threshold (cfg : KafkaTopicConfig) (N : Nat) (hN : 0 < N)
    (hcfg : cfg.WindowMaxMessages = N) (t : String) (pa : Int) :
    ∀ (ms : List RawKafkaMessage), ms ≠ [] →
      (∀ m ∈ ms, m.Topic = t ∧ m.Partition = pa) →
      ∀ (s : MState) (p : Nat),
        lookupReg s.windows (keyFor t pa) = some p →
        p < s.heap.length →
        (s.heap.getD p default).IsClosed = false →
        (s.heap.getD p default).MessageCount + ms.length = N →
        (runTrace cfg (ms.map Act.add) s).windows = s.windows
        ∧ (runTrace cfg (ms.map Act.add) s).heap.length = s.heap.length
        ∧ (runTrace cfg (ms.map Act.add) s).pending = s.pending ++ [p]
        ∧ ((runTrace cfg (ms.map Act.add) s).heap.getD p default).Messages
            = (s.heap.getD p default).Messages ++ ms
        ∧ ((runTrace cfg (ms.map Act.add) s).heap.getD p default).MessageCount = N
        ∧ ((runTrace cfg (ms.map Act.add) s).heap.getD p default).IsClosed = true
        ∧ ((runTrace cfg (ms.map Act.add) s).heap.getD p default).Topic
            = (s.heap.getD p default).Topic
        ∧ ((runTrace cfg (ms.map Act.add) s).heap.getD p default).Partition
            = (s.heap.getD p default).Partition := by
  intro ms
  induction ms with
  | nil => intro hne; exact absurd rfl hne
  | cons m rest ih =>
      intro _ hkeys s p hlook hp hopen hcount
      obtain ⟨hmt, hmp⟩ := hkeys m (List.mem_cons_self m rest)
      have hfound := addMessage_found s cfg m p (by rw [hmt, hmp]; exact hlook)
      have hw'cnt : ((s.heap.getD p default).AddMessage m).MessageCount
          = (s.heap.getD p default).MessageCount + 1 := rfl
      rw [List.map_cons, runTrace_cons, applyAct_add, hfound]
      cases rest with
      | nil =>
          have hcondT : 0 < cfg.WindowMaxMessages ∧ cfg.WindowMaxMessages
              ≤ ((s.heap.getD p default).AddMessage m).MessageCount := by
            rw [hcfg, hw'cnt]
            simp only [List.length_cons, List.length_nil] at hcount
            exact ⟨hN, by omega⟩
          rw [if_pos hcondT, List.map_nil, runTrace_nil]
          have hp1 : p < (s.heap.set p ((s.heap.getD p default).AddMessage m)).length := by
            rw [List.length_set]; exact hp
          have hopen1 : closedAt { s with
              heap := s.heap.set p ((s.heap.getD p default).AddMessage m) } p = false := by
            unfold closedAt
            simp only
            rw [getD_set_self _ hp, addMessage_IsClosed]
            exact hopen
          rw [closeWindow_open _ p hopen1]
          have hgd1 : (s.heap.set p ((s.heap.getD p default).AddMessage m)).getD p default
              = (s.heap.getD p default).AddMessage m := getD_set_self _ hp
          refine ⟨rfl, ?_, rfl, ?_, ?_, ?_, ?_, ?_⟩
          · simp [List.length_set]
          · show (((s.heap.set p ((s.heap.getD p default).AddMessage m)).set p _).getD p
                default).Messages = _
            rw [getD_set_self _ (by rw [List.length_set]; exact hp)]
            show ((s.heap.set p ((s.heap.getD p default).AddMessage m)).getD p
                default).Messages = _
            rw [hgd1]
            rfl
          · show (((s.heap.set p ((s.heap.getD p default).AddMessage m)).set p _).getD p
                default).MessageCount = N
            rw [getD_set_self _ (by rw [List.length_set]; exact hp)]
            show ((s.heap.set p ((s.heap.getD p default).AddMessage m)).getD p
                default).MessageCount = N
            rw [hgd1, hw'cnt]
            simp only [List.length_cons, List.length_nil] at hcount
            omega
          · show (((s.heap.set p ((s.heap.getD p default).AddMessage m)).set p _).getD p
                default).IsClosed = true
            rw [getD_set_self _ (by rw [List.length_set]; exact hp)]
          · show (((s.heap.set p ((s.heap.getD p default).AddMessage m)).set p _).getD p
                default).Topic = _
            rw [getD_set_self _ (by rw [List.length_set]; exact hp)]
            show ((s.heap.set p ((s.heap.getD p default).AddMessage m)).getD p
                default).Topic = _
            rw [hgd1]
            rfl
          · show (((s.heap.set p ((s.heap.getD p default).AddMessage m)).set p _).getD p
                default).Partition = _
            rw [getD_set_self _ (by rw [List.length_set]; exact hp)]
            show ((s.heap.set p ((s.heap.getD p default).AddMessage m)).getD p
                default).Partition = _
            rw [hgd1]
            rfl
      | cons m2 rest2 =>
          have hcondF : ¬ (0 < cfg.WindowMaxMessages ∧ cfg.WindowMaxMessages
              ≤ ((s.heap.getD p default).AddMessage m).MessageCount) := by
            rw [hcfg, hw'cnt]
            rintro ⟨_, hle⟩
            simp only [List.length_cons] at hcount
            omega
          rw [if_neg hcondF]
          have hgd1 : (s.heap.set p ((s.heap.getD p default).AddMessage m)).getD p default
              = (s.heap.getD p default).AddMessage m := getD_set_self _ hp
          have ihh := ih (by simp)
            (fun m' hm' => hkeys m' (List.mem_cons_of_mem m hm'))
            { s with heap := s.heap.set p ((s.heap.getD p default).AddMessage m) } p
            hlook
            (by simp only; rw [List.length_set]; exact hp)
            (by simp only; rw [hgd1, addMessage_IsClosed]; exact hopen)
            (by
              simp only
              rw [hgd1, hw'cnt]
              simp only [List.length_cons] at hcount ⊢
              omega)
          obtain ⟨i1, i2, i3, i4, i5, i6, i7, i8⟩ := ihh
          refine ⟨i1, ?_, i3, ?_, i5, i6, ?_, ?_⟩
          · rw [i2]; simp [List.length_set]
          · rw [i4]
            simp only
            rw [hgd1]
            show ((s.heap.getD p default).Messages ++ [m]) ++ (m2 :: rest2) = _
            rw [List.append_assoc]
            rfl
          · rw [i7]
            simp only
            rw [hgd1]
            rfl
          · rw [i8]
            simp only
            rw [hgd1]
            rfl

/-- `closeWindow` never touches the registry, the message list or the
count of the window it closes. -/
theorem closeWindow_preserves (s : MState) (p : Nat) :
    (s.closeWindow p).windows = s.windows
    ∧ ((s.closeWindow p).heap.getD p default).Messages
        = (s.heap.getD p default).Messages
    ∧ ((s.closeWindow p).heap.getD p default).MessageCount
        = (s.heap.getD p default).MessageCount := by
  cases hc : closedAt s p with
  | true => rw [closeWindow_closed s p hc]; exact ⟨rfl, rfl, rfl⟩
  | false =>
      rw [closeWindow_open s p hc]
      refine ⟨rfl, ?_, ?_⟩
      · simp only
        by_cases hp : p < s.heap.length
        · rw [getD_set_self _ hp]
        · rw [List.set_eq_of_length_le (by omega)]
      · simp only
        by_cases hp : p < s.heap.length
        · rw [getD_set_self _ hp]
        · rw [List.set_eq_of_length_le (by omega)]

/-- After the processing goroutine has installed the replacement window
for a key, the next message ingested for that key is appended to the
fresh instance: it ends up as the sole message of the window at the new
pointer. -/
theorem ingest_after_replacement (cfg : KafkaTopicConfig) (sN : MState) (p : Nat)
    (t : String) (pa : Int) (res : Bool) (msg' : RawKafkaMessage)
    (hmt : msg'.Topic = t) (hmp : msg'.Partition = pa)
    (hp : p ∈ sN.pending)
    (hT : (sN.heap.getD p default).Topic = t)
    (hP : (sN.heap.getD p default).Partition = pa) :
    lookupReg ((sN.pendingRunOp cfg p res).addMessage cfg msg').windows (keyFor t pa)
      = some sN.heap.length
    ∧ (((sN.pendingRunOp cfg p res).addMessage cfg msg').heap.getD sN.heap.length
        default).Messages = [msg']
    ∧ (((sN.pendingRunOp cfg p res).addMessage cfg msg').heap.getD sN.heap.length
        default).MessageCount = 1 := by
  rw [pendingRunOp_pos sN cfg p res hp, hT, hP]
  have hlookR : lookupReg (eraseReg sN.windows (keyFor t pa)
      ++ [(keyFor t pa, sN.heap.length)]) (keyFor t pa) = some sN.heap.length :=
    lookupReg_setEntry _ _ _
  rw [addMessage_found _ cfg msg' sN.heap.length (by rw [hmt, hmp]; exact hlookR)]
  have hgd : ((sN.heap ++ [NewWindow t pa sN.now cfg.Context]).getD sN.heap.length default)
      = NewWindow t pa sN.now cfg.Context := getD_concat_self _ _
  split
  · obtain ⟨c1, c2, c3⟩ := closeWindow_preserves _ sN.heap.length
    refine ⟨?_, ?_, ?_⟩
    · rw [c1]; exact hlookR
    · rw [c2]
      simp only
      rw [getD_set_self _ (by simp)]
      rw [hgd]
      rfl
    · rw [c3]
      simp only
      rw [getD_set_self _ (by simp)]
      rw [hgd]
      rfl
  · refine ⟨hlookR, ?_, ?_⟩
    · simp only
      rw [getD_set_self _ (by simp)]
      rw [hgd]
      rfl
    · simp only
      rw [getD_set_self _ (by simp)]
      rw [hgd]
      rfl

/-- C3 amended: with threshold `N > 0`, ingesting exactly `N` messages
for a fresh key closes that window synchronously with count `N` holding
exactly those messages in ingestion order, and — provided the
asynchronous replacement goroutine has run before it — the `(N+1)`-th
message for the same key lands in the brand-new window, not the closed
one.  (Without that proviso the closed window is still registered and
receives the message; see the counterexample.) -/
theorem threshold_closes_window (cfg : KafkaTopicConfig) (N : Nat) (hN : 0 < N)
    (hcfg : cfg.WindowMaxMessages = N) (t : String) (pa : Int)
    (msgs : List RawKafkaMessage) (hlen : msgs.length = N)
    (hkeys : ∀ m ∈ msgs, m.Topic = t ∧ m.Partition = pa)
    (s0 : MState) (hfresh : lookupReg s0.windows (keyFor t pa) = none) :
    lookupReg (runTrace cfg (msgs.map Act.add) s0).windows (keyFor t pa)
        = some s0.heap.length
    ∧ (runTrace cfg (msgs.map Act.add) s0).heap.length = s0.heap.length + 1
    ∧ ((runTrace cfg (msgs.map Act.add) s0).heap.getD s0.heap.length default).IsClosed
        = true
    ∧ ((runTrace cfg (msgs.map Act.add) s0).heap.getD s0.heap.length default).MessageCount
        = N
    ∧ ((runTrace cfg (msgs.map Act.add) s0).heap.getD s0.heap.length default).Messages
        = msgs
    ∧ s0.heap.length ∈ (runTrace cfg (msgs.map Act.add) s0).pending
    ∧ ∀ (res : Bool) (msg' : RawKafkaMessage), msg'.Topic = t → msg'.Partition = pa →
        lookupReg (((runTrace cfg (msgs.map Act.add) s0).pendingRunOp cfg s0.heap.length
              res).addMessage cfg msg').windows (keyFor t pa)
          = some (runTrace cfg (msgs.map Act.add) s0).heap.length
        ∧ (runTrace cfg (msgs.map Act.add) s0).heap.length ≠ s0.heap.length
        ∧ ((((runTrace cfg (msgs.map Act.add) s0).pendingRunOp cfg s0.heap.length
              res).addMessage cfg msg').heap.getD
            (runTrace cfg (msgs.map Act.add) s0).heap.length default).Messages = [msg']
        ∧ ((((runTrace cfg (msgs.map Act.add) s0).pendingRunOp cfg s0.heap.length
              res).addMessage cfg msg').heap.getD
            (runTrace cfg (msgs.map Act.add) s0).heap.length default).MessageCount
            = 1 := by
  have hcore : lookupReg (runTrace cfg (msgs.map Act.add) s0).windows (keyFor t pa)
        = some s0.heap.length
      ∧ (runTrace cfg (msgs.map Act.add) s0).heap.length = s0.heap.length + 1
      ∧ ((runTrace cfg (msgs.map Act.add) s0).heap.getD s0.heap.length default).IsClosed
          = true
      ∧ ((runTrace cfg (msgs.map Act.add) s0).heap.getD s0.heap.length
          default).MessageCount = N
      ∧ ((runTrace cfg (msgs.map Act.add) s0).heap.getD s0.heap.length default).Messages
          = msgs
      ∧ s0.heap.length ∈ (runTrace cfg (msgs.map Act.add) s0).pending
      ∧ ((runTrace cfg (msgs.map Act.add) s0).heap.getD s0.heap.length default).Topic = t
      ∧ ((runTrace cfg (msgs.map Act.add) s0).heap.getD s0.heap.length default).Partition
          = pa := by
    cases msgs with
    | nil =>
        simp at hlen
        omega
    | cons m rest =>
        obtain ⟨hmt, hmp⟩ := hkeys m (List.mem_cons_self m rest)
        have hfreshm : lookupReg s0.windows (keyFor m.Topic m.Partition) = none := by
          rw [hmt, hmp]; exact hfresh
        rw [List.map_cons, runTrace_cons, applyAct_add, addMessage_fresh s0 cfg m hfreshm,
          hmt, hmp]
        have hlook1 : lookupReg (s0.windows ++ [(keyFor t pa, s0.heap.length)])
            (keyFor t pa) = some s0.heap.length := by
          rw [lookupReg_append, hfresh]
          simp [lookupReg]
        cases rest with
        | nil =>
            have hN1 : N = 1 := by simp at hlen; omega
            have hc1 : ((NewWindow t pa m.Timestamp cfg.Context).AddMessage m).MessageCount
                = 1 := rfl
            rw [if_pos (show 0 < cfg.WindowMaxMessages ∧ cfg.WindowMaxMessages
                ≤ ((NewWindow t pa m.Timestamp cfg.Context).AddMessage m).MessageCount by
              rw [hcfg, hN1, hc1]; exact ⟨by omega, by omega⟩)]
            have hopen1 : closedAt { s0 with
                heap := s0.heap ++ [(NewWindow t pa m.Timestamp cfg.Context).AddMessage m],
                windows := s0.windows ++ [(keyFor t pa, s0.heap.length)],
                flushers := s0.flushers ++ [s0.heap.length] } s0.heap.length = false := by
              unfold closedAt
              simp only
              rw [getD_concat_self]
              rfl
            rw [closeWindow_open _ _ hopen1, List.map_nil, runTrace_nil]
            refine ⟨hlook1, by simp [List.length_set], ?_, ?_, ?_, by simp, ?_, ?_⟩
            · simp only
              rw [getD_set_self _ (by simp)]
            · simp only
              rw [getD_set_self _ (by simp), getD_concat_self]
              simp only
              rw [hN1]
              rfl
            · simp only
              rw [getD_set_self _ (by simp), getD_concat_self]
              rfl
            · simp only
              rw [getD_set_self _ (by simp), getD_concat_self]
              rfl
            · simp only
              rw [getD_set_self _ (by simp), getD_concat_self]
              rfl
        | cons m2 rest2 =>
            rw [if_neg (show ¬ (0 < cfg.WindowMaxMessages ∧ cfg.WindowMaxMessages
                ≤ ((NewWindow t pa m.Timestamp cfg.Context).AddMessage m).MessageCount) by
              rw [hcfg]
              rintro ⟨_, hle⟩
              have : ((NewWindow t pa m.Timestamp cfg.Context).AddMessage m).MessageCount
                  = 1 := rfl
              rw [this] at hle
              simp only [List.length_cons] at hlen
              omega)]
            have ihh := ingest_to_threshold cfg N hN hcfg t pa (m2 :: rest2) (by simp)
              (fun m' hm' => hkeys m' (List.mem_cons_of_mem m hm'))
              { s0 with
                heap := s0.heap ++ [(NewWindow t pa m.Timestamp cfg.Context).AddMessage m],
                windows := s0.windows ++ [(keyFor t pa, s0.heap.length)],
                flushers := s0.flushers ++ [s0.heap.length] } s0.heap.length
              hlook1
              (by simp)
              (by simp only; rw [getD_concat_self]; rfl)
              (by
                simp only
                rw [getD_concat_self]
                have : ((NewWindow t pa m.Timestamp cfg.Context).AddMessage m).MessageCount
                    = 1 := rfl
                rw [this]
                simp only [List.length_cons] at hlen ⊢
                omega)
            obtain ⟨i1, i2, i3, i4, i5, i6, i7, i8⟩ := ihh
            refine ⟨?_, ?_, i6, i5, ?_, ?_, ?_, ?_⟩
            · rw [i1]; exact hlook1
            · rw [i2]; simp
            · rw [i4]
              simp only
              rw [getD_concat_self]
              rfl
            · rw [i3]; simp
            · rw [i7]
              simp only
              rw [getD_concat_self]
              rfl
            · rw [i8]
              simp only
              rw [getD_concat_self]
              rfl
  obtain ⟨c1, c2, c3, c4, c5, c6, c7, c8⟩ := hcore
  refine ⟨c1, c2, c3, c4, c5, c6, ?_⟩
  intro res msg' hmt' hmp'
  have htail := ingest_after_replacement cfg (runTrace cfg (msgs.map Act.add) s0)
    s0.heap.length t pa res msg' hmt' hmp' c6 c7 c8
  exact ⟨htail.1, by omega, htail.2.1, htail.2.2⟩

/-- Witness for `threshold_closes_window`: the spec's own scenario —
threshold 3, ingest three messages, then (after the replacement ran) a
fourth. -/
theorem threshold_closes_window_witness :
    lookupReg (runTrace cfgT3 ([msgA, msgB, msgD].map Act.add) initState).windows
        (keyFor "t" 0) = some 0
    ∧ ((runTrace cfgT3 ([msgA, msgB, msgD].map Act.add) initState).heap.getD 0
        default).MessageCount = 3
    ∧ ((runTrace cfgT3 ([msgA, msgB, msgD].map Act.add) initState).heap.getD 0
        default).Messages = [msgA, msgB, msgD]
    ∧ ((((runTrace cfgT3 ([msgA, msgB, msgD].map Act.add) initState).pendingRunOp cfgT3 0
          true).addMessage cfgT3 msgE).heap.getD
        (runTrace cfgT3 ([msgA, msgB, msgD].map Act.add) initState).heap.length
        default).Messages = [msgE] := by
  have h := threshold_closes_window cfgT3 3 (by decide) (by decide) "t" 0
    [msgA, msgB, msgD] (by decide) (by decide) initState (by decide)
  exact ⟨h.1, h.2.2.2.1, h.2.2.2.2.1,
    (h.2.2.2.2.2.2 true msgE (by decide) (by decide)).2.2.1⟩

/-- C8 counterexample: with threshold 1, the first message closes the
window while its scheduler task is still registered; from that state, no
interleaving that does not contain an explicit `FlushAllWindows` call
ever removes the task — its loop does not exit once the instance closes,
contradicting the claim that the task terminates when its window
closes. -/
theorem scheduler_task_never_exits :
    closedAt (runTrace cfgT1 [Act.add msgA] initState) 0 = true
    ∧ 0 ∈ (runTrace cfgT1 [Act.add msgA] initState).flushers
    ∧ ∀ acts : List Act, (∀ a ∈ acts, a ≠ Act.flushAllW) →
        0 ∈ (runTrace cfgT1 acts (runTrace cfgT1 [Act.add msgA] initState)).flushers := by
  refine ⟨by decide, by decide, ?_⟩
  intro acts h
  exact (leaked_flusher_trace cfgT1 0 acts h _ (by decide) (by decide) (by decide)).1

/-- Witness for `scheduler_no_rotation_after_close`: the leaked flusher of
a threshold-closed window ignores timer fires, and can later steal a
flush signal sent for the replacement window and exit. -/
theorem scheduler_no_rotation_after_close_witness :
    (runTrace cfgT1 [Act.add msgA] initState).tickOp cfgT1 0
        = runTrace cfgT1 [Act.add msgA] initState
    ∧ (runTrace cfgT1 [Act.add msgA, Act.run 0 true, Act.flushAllW] initState).flushRecvOp 0
        = { runTrace cfgT1 [Act.add msgA, Act.run 0 true, Act.flushAllW] initState with
            flushSignal := false,
            flushers := (runTrace cfgT1 [Act.add msgA, Act.run 0 true, Act.flushAllW]
              initState).flushers.erase 0 } :=
  ⟨(scheduler_no_rotation_after_close cfgT1).1 _ 0 (by decide),
   (scheduler_no_rotation_after_close cfgT1).2 _ 0 (by decide) (by decide) (by decide)⟩

end StreamRag
